import Mathlib

/-!
Verification of the resilience and synchronization core of the
agentic-trust-platform auth service, as a shallow embedding in Lean 4.

Embedded components (each definition is translated from the named source
file):

* Circuit breaker configuration and error classification —
  `app/core/circuit_breaker.py` (`CIRCUIT_BREAKER_CONFIG`) and
  `app/core/workos_client.py`.  The breaker state machine itself lives in
  the external `circuitbreaker` library, which is not part of this
  repository; its transition behaviour is modelled from the spec (§4.1).
* Entity sync engine — `app/services/workos_service.py`
  (`WorkOSService._sync_user_data`, `WorkOSService.sync_organization`),
  both as a sequential function with an environment-supplied conflict
  trace and as an interleaving model for concurrent callers.
* Audit ingestion — `app/services/audit_service.py`
  (`AuditService.sync_workos_events`, `AuditService.create_custom_event`).
  The session is created with `autoflush=False`
  (`app/database.py`), so the dedup SELECT inside a run sees only rows
  committed before the run started; the embedding reflects that.
* Cache-aside store — `app/core/cache.py` (`CacheService`).
-/

namespace AgenticTrust

/-! ## Circuit breaker: error classification and state machine -/

/-- Errors an outbound provider call can raise, abstracted from the
exception types appearing in `app/core/workos_client.py`:
`httpx.RequestError` (network), `httpx.TimeoutException` (timeout),
`httpx.HTTPStatusError` carrying a status code, and any non-httpx
exception (`otherError`). -/
inductive ProviderError where
  | requestError
  | timeoutError
  | httpStatusError (status : Nat)
  | otherError
deriving Repr, DecidableEq

/-- `CIRCUIT_BREAKER_CONFIG["failure_threshold"]` from
`app/core/circuit_breaker.py`: open the circuit after 5 consecutive
failures. -/
def failure_threshold : Nat := 5

/-- `CIRCUIT_BREAKER_CONFIG["recovery_timeout"]` from
`app/core/circuit_breaker.py`: wait 30 seconds before attempting
recovery. -/
def recovery_timeout : Nat := 30

/-- Membership in `CIRCUIT_BREAKER_CONFIG["expected_exception"]` from
`app/core/circuit_breaker.py`: the tuple `(httpx.RequestError,
httpx.TimeoutException, httpx.HTTPStatusError)`.  An `HTTPStatusError`
is a member regardless of its status code — the configuration carries no
status filter. -/
def isExpectedException : ProviderError → Bool
  | ProviderError.requestError => true
  | ProviderError.timeoutError => true
  | ProviderError.httpStatusError _ => true
  | ProviderError.otherError => false

/-- Modelled from the spec (§6): the façade classifies status codes ≥ 500
and the two exception types (network, timeout) as breaker-countable
failures, all others as permanent.  Stated separately from
`isExpectedException` so the two classifications can be compared. -/
def specBreakerCountable : ProviderError → Bool
  | ProviderError.requestError => true
  | ProviderError.timeoutError => true
  | ProviderError.httpStatusError s => decide (500 ≤ s)
  | ProviderError.otherError => false

/-- Circuit breaker modes (spec §4.1 / `circuit_breaker.py` module
docstring).  In this sequential model the half-open probe happens
atomically inside a single call, so `halfOpen` is never the resting mode
between calls. -/
inductive BreakerMode where
  | closed
  | opened
  | halfOpen
deriving Repr, DecidableEq

/-- Modelled from the spec (§3, `CircuitState`): current mode,
consecutive-failure count, and the time of the last transition to OPEN.
The state machine itself is implemented by the external `circuitbreaker`
library, which is not part of this repository. -/
structure BreakerState where
  mode : BreakerMode
  failureCount : Nat
  openedAt : Nat
deriving Repr, DecidableEq

/-- What the wrapped operation would do if it were invoked. -/
inductive CallOutcome where
  | success
  | raises (e : ProviderError)
deriving Repr, DecidableEq

/-- What the caller of the breaker-wrapped operation observes. -/
inductive CallResult where
  | ok
  | raised (e : ProviderError)
  | circuitOpen
deriving Repr, DecidableEq

/-- Effect of one call through the breaker: the next breaker state, the
result observed by the caller, and whether the wrapped operation was
actually invoked. -/
structure CallEffect where
  state : BreakerState
  result : CallResult
  invoked : Bool
deriving Repr, DecidableEq

/-- Modelled from the spec (§4.1): one call through the breaker at time
`now`, where `outcome` describes what the wrapped operation would do if
invoked.  CLOSED: invoke; a success resets the counter, a countable
failure increments it and opens the circuit when the threshold is
reached, a non-countable error propagates without touching the counter.
OPEN: before `recovery_timeout` has elapsed the call fails with
`CircuitOpenError` without invoking the operation; afterwards the call
is let through as the half-open probe — a successful probe closes the
breaker and resets the counter, a countable failure reopens it and
restarts the recovery timer.  (A non-countable error during the probe is
treated like a success for breaker purposes, matching the classification
rule that only expected exceptions are breaker failures.) -/
def breakerCall (st : BreakerState) (now : Nat) (outcome : CallOutcome) : CallEffect :=
  match st.mode with
  | BreakerMode.closed =>
    match outcome with
    | CallOutcome.success =>
        ⟨⟨BreakerMode.closed, 0, st.openedAt⟩, CallResult.ok, true⟩
    | CallOutcome.raises e =>
        if isExpectedException e then
          if failure_threshold ≤ st.failureCount + 1 then
            ⟨⟨BreakerMode.opened, st.failureCount + 1, now⟩, CallResult.raised e, true⟩
          else
            ⟨⟨BreakerMode.closed, st.failureCount + 1, st.openedAt⟩, CallResult.raised e, true⟩
        else
          ⟨st, CallResult.raised e, true⟩
  | BreakerMode.opened =>
    if now < st.openedAt + recovery_timeout then
      ⟨st, CallResult.circuitOpen, false⟩
    else
      match outcome with
      | CallOutcome.success =>
          ⟨⟨BreakerMode.closed, 0, st.openedAt⟩, CallResult.ok, true⟩
      | CallOutcome.raises e =>
          if isExpectedException e then
            ⟨⟨BreakerMode.opened, st.failureCount, now⟩, CallResult.raised e, true⟩
          else
            ⟨⟨BreakerMode.closed, 0, st.openedAt⟩, CallResult.raised e, true⟩
  | BreakerMode.halfOpen =>
    match outcome with
    | CallOutcome.success =>
        ⟨⟨BreakerMode.closed, 0, st.openedAt⟩, CallResult.ok, true⟩
    | CallOutcome.raises e =>
        if isExpectedException e then
          ⟨⟨BreakerMode.opened, st.failureCount, now⟩, CallResult.raised e, true⟩
        else
          ⟨⟨BreakerMode.closed, 0, st.openedAt⟩, CallResult.raised e, true⟩

/-- Breaker state before the first call to a dependency (CLOSED, zero
consecutive failures). -/
def initialBreaker : BreakerState := ⟨BreakerMode.closed, 0, 0⟩

/-- Run a sequence of calls through the breaker; each list entry is the
call's time and the outcome the wrapped operation would produce.
Returns the final state and, per call, the observed result and whether
the operation was invoked. -/
def runCalls (st : BreakerState) : List (Nat × CallOutcome) → BreakerState × List (CallResult × Bool)
  | [] => (st, [])
  | (t, o) :: rest =>
      let eff := breakerCall st t o
      let tail := runCalls eff.state rest
      (tail.1, (eff.result, eff.invoked) :: tail.2)

/-- Number of calls in a result trace that actually invoked the wrapped
operation. -/
def countInvocations (rs : List (CallResult × Bool)) : Nat :=
  (rs.filter (fun r => r.2)).length

/-- In CLOSED mode a countable failure increments the counter and opens
the circuit exactly when the threshold is reached. -/
lemma breakerCall_closed_countable (c oa t : Nat) (e : ProviderError)
    (he : isExpectedException e = true) :
    breakerCall ⟨BreakerMode.closed, c, oa⟩ t (CallOutcome.raises e) =
      if failure_threshold ≤ c + 1 then
        ⟨⟨BreakerMode.opened, c + 1, t⟩, CallResult.raised e, true⟩
      else
        ⟨⟨BreakerMode.closed, c + 1, oa⟩, CallResult.raised e, true⟩ := by
  simp [breakerCall, he]

/-- While OPEN and before the recovery timeout has elapsed, a call
changes nothing, returns `CircuitOpenError`, and does not invoke the
wrapped operation. -/
lemma breakerCall_open_blocked (st : BreakerState) (t : Nat) (o : CallOutcome)
    (hm : st.mode = BreakerMode.opened) (ht : t < st.openedAt + recovery_timeout) :
    breakerCall st t o = ⟨st, CallResult.circuitOpen, false⟩ := by
  simp [breakerCall, hm, ht]

/-- C1 counterexample: a client error — `httpx.HTTPStatusError` with
status 404 (not-found) — is a member of the configured
`expected_exception` tuple, so one such error increments the breaker's
failure counter, and five consecutive ones open the circuit.  This
contradicts the claim that a 4xx-equivalent error never increments the
counter and never contributes to opening the circuit (the spec-side
classification `specBreakerCountable` indeed excludes status 404, but
the code-side classification does not). -/
theorem C1_counterexample :
    isExpectedException (ProviderError.httpStatusError 404) = true ∧
    specBreakerCountable (ProviderError.httpStatusError 404) = false ∧
    (breakerCall initialBreaker 0
        (CallOutcome.raises (ProviderError.httpStatusError 404))).state.failureCount = 1 ∧
    (runCalls initialBreaker
        (List.replicate 5 (0, CallOutcome.raises (ProviderError.httpStatusError 404)))).1.mode =
      BreakerMode.opened := by
  decide

/-- C1 (amended): every `HTTPStatusError` — any status code, client
errors included — counts toward the breaker's consecutive-failure
threshold, exactly like network and timeout errors; only exceptions
outside the three configured httpx types never increment the failure
counter.  Either way the error propagates to the caller unchanged while
the circuit is closed. -/
theorem C1_classification (st : BreakerState) (now : Nat)
    (h : st.mode = BreakerMode.closed) :
    (∀ s : Nat, isExpectedException (ProviderError.httpStatusError s) = true) ∧
    (∀ e, isExpectedException e = false →
      breakerCall st now (CallOutcome.raises e) = ⟨st, CallResult.raised e, true⟩) ∧
    (∀ e, isExpectedException e = true →
      (breakerCall st now (CallOutcome.raises e)).state.failureCount = st.failureCount + 1 ∧
      (breakerCall st now (CallOutcome.raises e)).result = CallResult.raised e) := by
  refine ⟨fun _ => rfl, ?_, ?_⟩
  · intro e he
    simp [breakerCall, h, he]
  · intro e he
    simp only [breakerCall, h, he, if_true]
    constructor
    · split <;> rfl
    · split <;> rfl

/-- Witness for `C1_classification` at a concrete input. -/
theorem C1_classification_witness :
    breakerCall ⟨BreakerMode.closed, 0, 0⟩ 0 (CallOutcome.raises ProviderError.otherError) =
      ⟨⟨BreakerMode.closed, 0, 0⟩, CallResult.raised ProviderError.otherError, true⟩ :=
  (C1_classification ⟨BreakerMode.closed, 0, 0⟩ 0 rfl).2.1 ProviderError.otherError rfl

/-- Running a concatenated call sequence is running the first part and
continuing from its final state. -/
lemma runCalls_append (st : BreakerState) (l1 l2 : List (Nat × CallOutcome)) :
    runCalls st (l1 ++ l2) =
      ((runCalls (runCalls st l1).1 l2).1,
        (runCalls st l1).2 ++ (runCalls (runCalls st l1).1 l2).2) := by
  induction l1 generalizing st with
  | nil => simp [runCalls]
  | cons p rest ih =>
    obtain ⟨t, o⟩ := p
    simp [runCalls, ih]

/-- While OPEN and before the recovery timeout, a whole sequence of
calls leaves the state untouched and yields only rejected, uninvoked
results. -/
lemma runCalls_open_blocked (st : BreakerState) (hm : st.mode = BreakerMode.opened) :
    ∀ calls : List (Nat × CallOutcome),
      (∀ p ∈ calls, p.1 < st.openedAt + recovery_timeout) →
      runCalls st calls = (st, calls.map (fun _ => (CallResult.circuitOpen, false))) := by
  intro calls
  induction calls with
  | nil => intro _; rfl
  | cons p rest ih =>
    intro hall
    obtain ⟨t, o⟩ := p
    have hb := breakerCall_open_blocked st t o hm (hall (t, o) (List.mem_cons_self _ _))
    have ihr := ih (fun q hq => hall q (List.mem_cons_of_mem _ hq))
    simp [runCalls, hb, ihr]

lemma countInvocations_append (a b : List (CallResult × Bool)) :
    countInvocations (a ++ b) = countInvocations a + countInvocations b := by
  simp [countInvocations, List.filter_append]

lemma countInvocations_blocked (calls : List (Nat × CallOutcome)) :
    countInvocations (calls.map (fun _ => (CallResult.circuitOpen, false))) = 0 := by
  induction calls with
  | nil => rfl
  | cons p rest ih =>
    rw [List.map_cons]
    rw [show countInvocations ((CallResult.circuitOpen, false) ::
        List.map (fun _ => (CallResult.circuitOpen, false)) rest) =
        countInvocations (List.map (fun _ => (CallResult.circuitOpen, false)) rest) from rfl]
    exact ih

/-- Five consecutive countable failures from the initial state: each is
invoked and re-raised, the counter climbs to the threshold, and the
breaker opens with the transition time recorded from the fifth
failure. -/
lemma runCalls_five_failures (t1 t2 t3 t4 t5 : Nat) (e1 e2 e3 e4 e5 : ProviderError)
    (h1 : isExpectedException e1 = true) (h2 : isExpectedException e2 = true)
    (h3 : isExpectedException e3 = true) (h4 : isExpectedException e4 = true)
    (h5 : isExpectedException e5 = true) :
    runCalls initialBreaker
      [(t1, CallOutcome.raises e1), (t2, CallOutcome.raises e2),
       (t3, CallOutcome.raises e3), (t4, CallOutcome.raises e4),
       (t5, CallOutcome.raises e5)] =
      (⟨BreakerMode.opened, failure_threshold, t5⟩,
       [(CallResult.raised e1, true), (CallResult.raised e2, true),
        (CallResult.raised e3, true), (CallResult.raised e4, true),
        (CallResult.raised e5, true)]) := by
  have b1 : breakerCall ⟨BreakerMode.closed, 0, 0⟩ t1 (CallOutcome.raises e1) =
      ⟨⟨BreakerMode.closed, 1, 0⟩, CallResult.raised e1, true⟩ := by
    rw [breakerCall_closed_countable 0 0 t1 e1 h1]; norm_num [failure_threshold]
  have b2 : breakerCall ⟨BreakerMode.closed, 1, 0⟩ t2 (CallOutcome.raises e2) =
      ⟨⟨BreakerMode.closed, 2, 0⟩, CallResult.raised e2, true⟩ := by
    rw [breakerCall_closed_countable 1 0 t2 e2 h2]; norm_num [failure_threshold]
  have b3 : breakerCall ⟨BreakerMode.closed, 2, 0⟩ t3 (CallOutcome.raises e3) =
      ⟨⟨BreakerMode.closed, 3, 0⟩, CallResult.raised e3, true⟩ := by
    rw [breakerCall_closed_countable 2 0 t3 e3 h3]; norm_num [failure_threshold]
  have b4 : breakerCall ⟨BreakerMode.closed, 3, 0⟩ t4 (CallOutcome.raises e4) =
      ⟨⟨BreakerMode.closed, 4, 0⟩, CallResult.raised e4, true⟩ := by
    rw [breakerCall_closed_countable 3 0 t4 e4 h4]; norm_num [failure_threshold]
  have b5 : breakerCall ⟨BreakerMode.closed, 4, 0⟩ t5 (CallOutcome.raises e5) =
      ⟨⟨BreakerMode.opened, 5, t5⟩, CallResult.raised e5, true⟩ := by
    rw [breakerCall_closed_countable 4 0 t5 e5 h5]; norm_num [failure_threshold]
  simp [initialBreaker, runCalls, b1, b2, b3, b4, b5, failure_threshold]

/-- C2: after `failure_threshold` (5) consecutive countable failures the
breaker is OPEN (with the transition time recorded from the fifth
failure); while OPEN — at any time before the recovery timeout has
elapsed — every call returns `CircuitOpenError`, leaves the state
untouched, and never invokes the wrapped operation; and, composed into
one run, appending any number of such calls to the five failures leaves
the breaker state at OPEN, keeps the wrapped operation's invocation
count exactly what it was after the failures alone (the counter stays
constant), and yields `CircuitOpenError` uninvoked for every appended
call. -/
theorem C2_open_short_circuit :
    (∀ (t1 t2 t3 t4 t5 : Nat) (e1 e2 e3 e4 e5 : ProviderError),
      isExpectedException e1 = true → isExpectedException e2 = true →
      isExpectedException e3 = true → isExpectedException e4 = true →
      isExpectedException e5 = true →
      (runCalls initialBreaker
        [(t1, CallOutcome.raises e1), (t2, CallOutcome.raises e2),
         (t3, CallOutcome.raises e3), (t4, CallOutcome.raises e4),
         (t5, CallOutcome.raises e5)]).1 =
        ⟨BreakerMode.opened, failure_threshold, t5⟩) ∧
    (∀ st : BreakerState, st.mode = BreakerMode.opened →
      ∀ calls : List (Nat × CallOutcome),
        (∀ p ∈ calls, p.1 < st.openedAt + recovery_timeout) →
        (runCalls st calls).1 = st ∧
        countInvocations (runCalls st calls).2 = 0 ∧
        ∀ r ∈ (runCalls st calls).2, r = (CallResult.circuitOpen, false)) ∧
    (∀ (t1 t2 t3 t4 t5 : Nat) (e1 e2 e3 e4 e5 : ProviderError),
      isExpectedException e1 = true → isExpectedException e2 = true →
      isExpectedException e3 = true → isExpectedException e4 = true →
      isExpectedException e5 = true →
      ∀ calls : List (Nat × CallOutcome),
        (∀ p ∈ calls, p.1 < t5 + recovery_timeout) →
        (runCalls initialBreaker
          ([(t1, CallOutcome.raises e1), (t2, CallOutcome.raises e2),
            (t3, CallOutcome.raises e3), (t4, CallOutcome.raises e4),
            (t5, CallOutcome.raises e5)] ++ calls)).1 =
          ⟨BreakerMode.opened, failure_threshold, t5⟩ ∧
        countInvocations (runCalls initialBreaker
          ([(t1, CallOutcome.raises e1), (t2, CallOutcome.raises e2),
            (t3, CallOutcome.raises e3), (t4, CallOutcome.raises e4),
            (t5, CallOutcome.raises e5)] ++ calls)).2 =
          countInvocations (runCalls initialBreaker
            [(t1, CallOutcome.raises e1), (t2, CallOutcome.raises e2),
             (t3, CallOutcome.raises e3), (t4, CallOutcome.raises e4),
             (t5, CallOutcome.raises e5)]).2 ∧
        ∀ r ∈ (runCalls initialBreaker
            ([(t1, CallOutcome.raises e1), (t2, CallOutcome.raises e2),
              (t3, CallOutcome.raises e3), (t4, CallOutcome.raises e4),
              (t5, CallOutcome.raises e5)] ++ calls)).2.drop 5,
          r = (CallResult.circuitOpen, false)) := by
  refine ⟨?_, ?_, ?_⟩
  · intro t1 t2 t3 t4 t5 e1 e2 e3 e4 e5 h1 h2 h3 h4 h5
    rw [runCalls_five_failures t1 t2 t3 t4 t5 e1 e2 e3 e4 e5 h1 h2 h3 h4 h5]
  · intro st hm calls hall
    rw [runCalls_open_blocked st hm calls hall]
    refine ⟨rfl, countInvocations_blocked calls, ?_⟩
    intro r hr
    obtain ⟨p, -, rfl⟩ := List.mem_map.mp hr
    rfl
  · intro t1 t2 t3 t4 t5 e1 e2 e3 e4 e5 h1 h2 h3 h4 h5 calls hall
    have hpre := runCalls_five_failures t1 t2 t3 t4 t5 e1 e2 e3 e4 e5 h1 h2 h3 h4 h5
    have hblocked :=
      runCalls_open_blocked ⟨BreakerMode.opened, failure_threshold, t5⟩ rfl calls hall
    rw [runCalls_append, hpre, hblocked]
    refine ⟨rfl, ?_, ?_⟩
    · rw [countInvocations_append, countInvocations_blocked, Nat.add_zero]
    · intro r hr
      simp only [List.cons_append, List.nil_append, List.drop] at hr
      obtain ⟨p, -, rfl⟩ := List.mem_map.mp hr
      rfl

/-- Witness for `C2_open_short_circuit` at concrete inputs: five
consecutive timeouts at times 0..4 open the circuit; two calls made at
times 5 and 20, both before the 30-second recovery timeout, are
rejected without invoking the operation, and the composed run's
invocation count equals that of the five failures alone. -/
theorem C2_open_short_circuit_witness :
    (runCalls initialBreaker
      [(0, CallOutcome.raises ProviderError.timeoutError),
       (1, CallOutcome.raises ProviderError.timeoutError),
       (2, CallOutcome.raises ProviderError.timeoutError),
       (3, CallOutcome.raises ProviderError.timeoutError),
       (4, CallOutcome.raises ProviderError.timeoutError)]).1 =
      ⟨BreakerMode.opened, failure_threshold, 4⟩ ∧
    ((runCalls ⟨BreakerMode.opened, 5, 4⟩ [(5, CallOutcome.success), (20, CallOutcome.success)]).1 =
        ⟨BreakerMode.opened, 5, 4⟩ ∧
      countInvocations
        (runCalls ⟨BreakerMode.opened, 5, 4⟩ [(5, CallOutcome.success), (20, CallOutcome.success)]).2 = 0 ∧
      ∀ r ∈ (runCalls ⟨BreakerMode.opened, 5, 4⟩
          [(5, CallOutcome.success), (20, CallOutcome.success)]).2,
        r = (CallResult.circuitOpen, false)) ∧
    countInvocations (runCalls initialBreaker
      ([(0, CallOutcome.raises ProviderError.timeoutError),
        (1, CallOutcome.raises ProviderError.timeoutError),
        (2, CallOutcome.raises ProviderError.timeoutError),
        (3, CallOutcome.raises ProviderError.timeoutError),
        (4, CallOutcome.raises ProviderError.timeoutError)] ++
       [(5, CallOutcome.success), (20, CallOutcome.success)])).2 =
      countInvocations (runCalls initialBreaker
        [(0, CallOutcome.raises ProviderError.timeoutError),
         (1, CallOutcome.raises ProviderError.timeoutError),
         (2, CallOutcome.raises ProviderError.timeoutError),
         (3, CallOutcome.raises ProviderError.timeoutError),
         (4, CallOutcome.raises ProviderError.timeoutError)]).2 :=
  ⟨C2_open_short_circuit.1 0 1 2 3 4 _ _ _ _ _ rfl rfl rfl rfl rfl,
   C2_open_short_circuit.2.1 ⟨BreakerMode.opened, 5, 4⟩ rfl
     [(5, CallOutcome.success), (20, CallOutcome.success)] (by decide),
   (C2_open_short_circuit.2.2 0 1 2 3 4 ProviderError.timeoutError
     ProviderError.timeoutError ProviderError.timeoutError ProviderError.timeoutError
     ProviderError.timeoutError rfl rfl rfl rfl rfl
     [(5, CallOutcome.success), (20, CallOutcome.success)] (by decide)).2.1⟩

/-- C3: once the recovery timeout has elapsed since the transition to
OPEN, the next call is let through as the single half-open probe: a
successful probe closes the breaker with its failure counter reset to
zero (after which calls invoke the operation normally), while a probe
failing with a countable error reopens the breaker with the recovery
timer restarted from that failure (so any call made before the new
timeout elapses is again rejected without invoking the operation —
exactly one call was let through). -/
theorem C3_half_open_probe (st : BreakerState) (now : Nat)
    (hm : st.mode = BreakerMode.opened) (ht : st.openedAt + recovery_timeout ≤ now) :
    (breakerCall st now CallOutcome.success =
      ⟨⟨BreakerMode.closed, 0, st.openedAt⟩, CallResult.ok, true⟩) ∧
    (∀ e, isExpectedException e = true →
      breakerCall st now (CallOutcome.raises e) =
        ⟨⟨BreakerMode.opened, st.failureCount, now⟩, CallResult.raised e, true⟩ ∧
      ∀ (t : Nat) (o : CallOutcome), t < now + recovery_timeout →
        breakerCall ⟨BreakerMode.opened, st.failureCount, now⟩ t o =
          ⟨⟨BreakerMode.opened, st.failureCount, now⟩, CallResult.circuitOpen, false⟩) ∧
    (∀ (t : Nat) (o : CallOutcome),
      (breakerCall ⟨BreakerMode.closed, 0, st.openedAt⟩ t o).invoked = true) := by
  have hnlt : ¬ now < st.openedAt + recovery_timeout := not_lt.mpr ht
  refine ⟨?_, ?_, ?_⟩
  · simp [breakerCall, hm, hnlt]
  · intro e he
    refine ⟨by simp [breakerCall, hm, hnlt, he], ?_⟩
    intro t o htlt
    exact breakerCall_open_blocked ⟨BreakerMode.opened, st.failureCount, now⟩ t o rfl htlt
  · intro t o
    cases o with
    | success => rfl
    | raises e =>
      simp only [breakerCall]
      split
      · split <;> rfl
      · rfl

/-- Witness for `C3_half_open_probe` at a concrete input: breaker opened
at time 0 with 5 failures, probed at time 30. -/
theorem C3_half_open_probe_witness :
    breakerCall ⟨BreakerMode.opened, 5, 0⟩ 30 CallOutcome.success =
      ⟨⟨BreakerMode.closed, 0, 0⟩, CallResult.ok, true⟩ ∧
    breakerCall ⟨BreakerMode.opened, 5, 0⟩ 30 (CallOutcome.raises ProviderError.timeoutError) =
      ⟨⟨BreakerMode.opened, 5, 30⟩, CallResult.raised ProviderError.timeoutError, true⟩ :=
  ⟨(C3_half_open_probe ⟨BreakerMode.opened, 5, 0⟩ 30 rfl (by decide)).1,
   ((C3_half_open_probe ⟨BreakerMode.opened, 5, 0⟩ 30 rfl (by decide)).2.1
      ProviderError.timeoutError rfl).1⟩

/-! ## Entity sync engine (`app/services/workos_service.py`)

The two sync methods run up to `max_retries` attempts.  Each attempt
opens a savepoint, reads the target row with a write lock, inserts or
updates, and flushes; a uniqueness/serialization conflict
(`IntegrityError` / `OperationalError`) rolls the attempt back and — if
it was not the last attempt — retries after `0.1 * 2 ** attempt`
seconds.  The database is modelled as the optional row for the one id
being synced; whether an attempt's flush conflicts is supplied by an
environment trace `conflict : Nat → Option DbConflict` indexed by the
attempt number. -/

/-- Python's `str.isspace`-class characters recognised by the regex
class `\s` (ASCII range, which is the range `generate_slug` can see
after lowercasing ASCII input). -/
def pyIsWhitespace (c : Char) : Bool :=
  c == ' ' || c == '\t' || c == '\n' || c == '\r' || c == '\x0b' || c == '\x0c'

/-- Characters kept by `re.sub(r"[^a-z0-9\s-]", "", slug)` in
`Organization.generate_slug`. -/
def slugKeepChar (c : Char) : Bool :=
  ('a' ≤ c && c ≤ 'z') || ('0' ≤ c && c ≤ '9') || pyIsWhitespace c || c == '-'

/-- Replace each maximal run of characters satisfying `p` by the single
character `rep` (the effect of `re.sub(r"X+", rep, s)`).  The Boolean
flag records whether the previous character was part of a run. -/
def collapseRunsAux (p : Char → Bool) (rep : Char) : List Char → Bool → List Char
  | [], _ => []
  | c :: cs, inRun =>
    if p c then
      if inRun then collapseRunsAux p rep cs true
      else rep :: collapseRunsAux p rep cs true
    else c :: collapseRunsAux p rep cs false

/-- Replace each maximal run of characters satisfying `p` by `rep`. -/
def collapseRuns (p : Char → Bool) (rep : Char) (l : List Char) : List Char :=
  collapseRunsAux p rep l false

/-- `Organization.generate_slug` from `app/models/organization.py`:
lowercase, drop characters outside `[a-z0-9\s-]`, replace runs of
whitespace/underscores with a hyphen, collapse hyphen runs, strip
leading/trailing hyphens, truncate to 100 characters.  (After the filter
step no underscore remains, so the whitespace/underscore run
substitution only ever sees whitespace runs.) -/
def generate_slug (name : String) : String :=
  let s1 := name.data.map Char.toLower
  let s2 := s1.filter slugKeepChar
  let s3 := collapseRuns (fun c => pyIsWhitespace c || c == '_') '-' s2
  let s4 := collapseRuns (fun c => c == '-') '-' s3
  let s5 := ((s4.dropWhile (fun c => c == '-')).reverse.dropWhile (fun c => c == '-')).reverse
  String.mk (s5.take 100)

/-- The remote user fields passed into `_sync_user_data` (fetched once
by the caller — from the session or from `get_user` — before the retry
loop starts). -/
structure UserData where
  email : String
  first_name : Option String
  last_name : Option String
  email_verified : Bool
  avatar_url : Option String
deriving Repr, DecidableEq

/-- The local `User` mirror row (`app/models/user.py`), restricted to
the fields `_sync_user_data` touches. -/
structure UserRow where
  id : String
  email : String
  first_name : Option String
  last_name : Option String
  email_verified : Bool
  avatar_url : Option String
  updated_at : Nat
deriving Repr, DecidableEq

/-- The insert branch of `_sync_user_data`: a new `User` row built from
the remote data. -/
def mkUserRow (uid : String) (d : UserData) (now : Nat) : UserRow :=
  ⟨uid, d.email, d.first_name, d.last_name, d.email_verified, d.avatar_url, now⟩

/-- The update branch of `_sync_user_data`: overwrite the found row's
fields from the remote data in place; `avatar_url` is only overwritten
when truthy (`if avatar_url:` — neither `None` nor the empty string),
and `updated_at` is bumped. -/
def applyUserUpdate (u : UserRow) (d : UserData) (now : Nat) : UserRow :=
  { u with
    email := d.email
    first_name := d.first_name
    last_name := d.last_name
    email_verified := d.email_verified
    avatar_url :=
      match d.avatar_url with
      | some s => if s = "" then u.avatar_url else some s
      | none => u.avatar_url
    updated_at := now }

/-- The two exception classes caught by the retry loop:
`sqlalchemy.exc.IntegrityError` (uniqueness) and
`sqlalchemy.exc.OperationalError` (serialization). -/
inductive DbConflict where
  | integrityError
  | operationalError
deriving Repr, DecidableEq

/-- Result of a sync call: the mirror row, or the `DatabaseError` raised
after exhausting all retries, wrapping the conflict that caused it. -/
inductive SyncOutcome (ρ : Type) where
  | ok (row : ρ)
  | databaseError (wrapped : DbConflict)
deriving Repr, DecidableEq

/-- `max_retries = 3` in both sync methods. -/
def max_retries : Nat := 3

/-- The backoff delay `0.1 * (2 ** attempt)` seconds, in milliseconds. -/
def backoff_ms (attempt : Nat) : Nat := 100 * 2 ^ attempt

/-- The retry loop of `_sync_user_data`, iterating over the remaining
attempt indices (`for attempt in range(max_retries)`).  Per attempt:
read the row (`db.get` with `with_for_update`); if absent build a new
row, else update it in place; flush.  A conflict rolls back to the
savepoint (the row is unchanged) and — on the last attempt
(`attempt == max_retries - 1`) — raises `DatabaseError` wrapping it,
otherwise sleeps `backoff_ms attempt` and retries.  Returns the
outcome, the row state left in the database, and the list of backoff
delays slept.  (The empty-list case is unreachable from
`sync_user_data`: the loop's last attempt always returns or raises.) -/
def sync_user_go (uid : String) (d : UserData) (now : Nat)
    (conflict : Nat → Option DbConflict) :
    List Nat → Option UserRow → List Nat →
      SyncOutcome UserRow × Option UserRow × List Nat
  | [], db, delays => (SyncOutcome.databaseError DbConflict.integrityError, db, delays)
  | attempt :: rest, db, delays =>
    let row :=
      match db with
      | some u => applyUserUpdate u d now
      | none => mkUserRow uid d now
    match conflict attempt with
    | none => (SyncOutcome.ok row, some row, delays)
    | some c =>
      if rest.isEmpty then (SyncOutcome.databaseError c, db, delays)
      else sync_user_go uid d now conflict rest db (delays ++ [backoff_ms attempt])

/-- `WorkOSService._sync_user_data`: run the retry loop over attempts
`range(max_retries)` starting from the given database state. -/
def sync_user_data (uid : String) (d : UserData) (now : Nat)
    (conflict : Nat → Option DbConflict) (db : Option UserRow) :
    SyncOutcome UserRow × Option UserRow × List Nat :=
  sync_user_go uid d now conflict (List.range max_retries) db []

/-- The remote organization data returned by
`workos_client.get_organization`. -/
structure OrgRemote where
  id : String
  name : String
deriving Repr, DecidableEq

/-- The local `Organization` mirror row
(`app/models/organization.py`), restricted to the fields
`sync_organization` writes. -/
structure OrgRow where
  id : String
  name : String
  slug : String
deriving Repr, DecidableEq

/-- The insert branch of `sync_organization`: a new row from the fetched
remote organization, with the slug derived from its name. -/
def mkOrgRow (r : OrgRemote) : OrgRow :=
  ⟨r.id, r.name, generate_slug r.name⟩

/-- The retry loop of `WorkOSService.sync_organization`.  Per attempt:
read the row; only when it is absent call
`workos_client.get_organization` (counted in the last component) and
build a new row from the result; a found row is returned as is — the
update branch of the user sync has no counterpart here.  Conflict
handling mirrors `sync_user_go`.  Returns the outcome, the row state,
the backoff delays, and how many times the remote organization was
fetched. -/
def sync_org_go (remote : OrgRemote) (conflict : Nat → Option DbConflict) :
    List Nat → Option OrgRow → List Nat → Nat →
      SyncOutcome OrgRow × Option OrgRow × List Nat × Nat
  | [], db, delays, fetches =>
      (SyncOutcome.databaseError DbConflict.integrityError, db, delays, fetches)
  | attempt :: rest, db, delays, fetches =>
    match db with
    | some org =>
      match conflict attempt with
      | none => (SyncOutcome.ok org, some org, delays, fetches)
      | some c =>
        if rest.isEmpty then (SyncOutcome.databaseError c, db, delays, fetches)
        else sync_org_go remote conflict rest db (delays ++ [backoff_ms attempt]) fetches
    | none =>
      let org := mkOrgRow remote
      match conflict attempt with
      | none => (SyncOutcome.ok org, some org, delays, fetches + 1)
      | some c =>
        if rest.isEmpty then (SyncOutcome.databaseError c, db, delays, fetches + 1)
        else sync_org_go remote conflict rest db (delays ++ [backoff_ms attempt]) (fetches + 1)

/-- `WorkOSService.sync_organization`: run the retry loop over attempts
`range(max_retries)`; `remote` is what `get_organization` returns
whenever it is called. -/
def sync_organization (remote : OrgRemote) (conflict : Nat → Option DbConflict)
    (db : Option OrgRow) :
    SyncOutcome OrgRow × Option OrgRow × List Nat × Nat :=
  sync_org_go remote conflict (List.range max_retries) db [] 0

/-- Canonical form of `sync_user_data`: since a rolled-back attempt
leaves the row untouched, every attempt computes the same candidate row,
and the call is determined by which attempts conflict. -/
lemma sync_user_data_cases (uid : String) (d : UserData) (now : Nat)
    (conflict : Nat → Option DbConflict) (db : Option UserRow) :
    sync_user_data uid d now conflict db =
      let row :=
        match db with
        | some u => applyUserUpdate u d now
        | none => mkUserRow uid d now
      match conflict 0 with
      | none => (SyncOutcome.ok row, some row, [])
      | some _ =>
        match conflict 1 with
        | none => (SyncOutcome.ok row, some row, [backoff_ms 0])
        | some _ =>
          match conflict 2 with
          | none => (SyncOutcome.ok row, some row, [backoff_ms 0, backoff_ms 1])
          | some c2 => (SyncOutcome.databaseError c2, db, [backoff_ms 0, backoff_ms 1]) := by
  have hr : List.range max_retries = [0, 1, 2] := rfl
  rcases db with _ | u <;>
    rcases h0 : conflict 0 with _ | c0 <;>
      rcases h1 : conflict 1 with _ | c1 <;>
        rcases h2 : conflict 2 with _ | c2 <;>
          simp [sync_user_data, sync_user_go, hr, h0, h1, h2]

/-- Canonical form of `sync_organization`: a found row is returned as is
with zero fetches; a missing row causes one remote fetch per executed
attempt. -/
lemma sync_organization_cases (remote : OrgRemote) (conflict : Nat → Option DbConflict)
    (db : Option OrgRow) :
    sync_organization remote conflict db =
      let row :=
        match db with
        | some o => o
        | none => mkOrgRow remote
      let f :=
        match db with
        | some _ => 0
        | none => 1
      match conflict 0 with
      | none => (SyncOutcome.ok row, some row, [], f)
      | some _ =>
        match conflict 1 with
        | none => (SyncOutcome.ok row, some row, [backoff_ms 0], 2 * f)
        | some _ =>
          match conflict 2 with
          | none => (SyncOutcome.ok row, some row, [backoff_ms 0, backoff_ms 1], 3 * f)
          | some c2 =>
              (SyncOutcome.databaseError c2, db, [backoff_ms 0, backoff_ms 1], 3 * f) := by
  have hr : List.range max_retries = [0, 1, 2] := rfl
  rcases db with _ | o <;>
    rcases h0 : conflict 0 with _ | c0 <;>
      rcases h1 : conflict 1 with _ | c1 <;>
        rcases h2 : conflict 2 with _ | c2 <;>
          simp [sync_organization, sync_org_go, hr, h0, h1, h2]

/-- C6: for both sync calls and every conflict trace, at most 3 attempts
are made (at most 2 backoff delays are slept), the k-th retried attempt
is delayed by exactly `100ms * 2^k`, the call raises a `DatabaseError`
if and only if all `max_retries` attempts conflict, and that error wraps
the last attempt's conflict while the rolled-back row state is left
unchanged. -/
theorem C6_retry_policy :
    (∀ (uid : String) (d : UserData) (now : Nat) (conflict : Nat → Option DbConflict)
        (db : Option UserRow),
      (sync_user_data uid d now conflict db).2.2.length + 1 ≤ max_retries ∧
      (sync_user_data uid d now conflict db).2.2 =
        (List.range (sync_user_data uid d now conflict db).2.2.length).map backoff_ms ∧
      ((∃ c, (sync_user_data uid d now conflict db).1 = SyncOutcome.databaseError c) ↔
        ∀ i < max_retries, (conflict i).isSome) ∧
      (∀ c, (sync_user_data uid d now conflict db).1 = SyncOutcome.databaseError c →
        conflict (max_retries - 1) = some c ∧
        (sync_user_data uid d now conflict db).2.1 = db)) ∧
    (∀ (remote : OrgRemote) (conflict : Nat → Option DbConflict) (db : Option OrgRow),
      (sync_organization remote conflict db).2.2.1.length + 1 ≤ max_retries ∧
      (sync_organization remote conflict db).2.2.1 =
        (List.range (sync_organization remote conflict db).2.2.1.length).map backoff_ms ∧
      ((∃ c, (sync_organization remote conflict db).1 = SyncOutcome.databaseError c) ↔
        ∀ i < max_retries, (conflict i).isSome) ∧
      (∀ c, (sync_organization remote conflict db).1 = SyncOutcome.databaseError c →
        conflict (max_retries - 1) = some c ∧
        (sync_organization remote conflict db).2.1 = db)) := by
  constructor
  · intro uid d now conflict db
    rw [sync_user_data_cases]
    rcases h0 : conflict 0 with _ | c0
    · refine ⟨by simp [max_retries], by rfl, ?_, by simp⟩
      constructor
      · rintro ⟨c, hc⟩; simp at hc
      · intro h
        have := h 0 (by norm_num [max_retries])
        rw [h0] at this
        simp at this
    · rcases h1 : conflict 1 with _ | c1
      · refine ⟨by simp [max_retries], by rfl, ?_, by simp⟩
        constructor
        · rintro ⟨c, hc⟩; simp at hc
        · intro h
          have := h 1 (by norm_num [max_retries])
          rw [h1] at this
          simp at this
      · rcases h2 : conflict 2 with _ | c2
        · refine ⟨by simp [max_retries], by rfl, ?_, by simp⟩
          constructor
          · rintro ⟨c, hc⟩; simp at hc
          · intro h
            have := h 2 (by norm_num [max_retries])
            rw [h2] at this
            simp at this
        · refine ⟨by simp [max_retries], by rfl, ?_, ?_⟩
          · constructor
            · intro _
              intro i hi
              simp only [max_retries] at hi
              interval_cases i <;> simp [h0, h1, h2]
            · intro _
              exact ⟨c2, by simp⟩
          · intro c hc
            have hcc : c2 = c := by simpa using hc
            subst hcc
            exact ⟨by simpa [max_retries] using h2, by simp⟩
  · intro remote conflict db
    rw [sync_organization_cases]
    rcases h0 : conflict 0 with _ | c0
    · refine ⟨by simp [max_retries], by rfl, ?_, by simp⟩
      constructor
      · rintro ⟨c, hc⟩; simp at hc
      · intro h
        have := h 0 (by norm_num [max_retries])
        rw [h0] at this
        simp at this
    · rcases h1 : conflict 1 with _ | c1
      · refine ⟨by simp [max_retries], by rfl, ?_, by simp⟩
        constructor
        · rintro ⟨c, hc⟩; simp at hc
        · intro h
          have := h 1 (by norm_num [max_retries])
          rw [h1] at this
          simp at this
      · rcases h2 : conflict 2 with _ | c2
        · refine ⟨by simp [max_retries], by rfl, ?_, by simp⟩
          constructor
          · rintro ⟨c, hc⟩; simp at hc
          · intro h
            have := h 2 (by norm_num [max_retries])
            rw [h2] at this
            simp at this
        · refine ⟨by simp [max_retries], by rfl, ?_, ?_⟩
          · constructor
            · intro _
              intro i hi
              simp only [max_retries] at hi
              interval_cases i <;> simp [h0, h1, h2]
            · intro _
              exact ⟨c2, by simp⟩
          · intro c hc
            have hcc : c2 = c := by simpa using hc
            subst hcc
            exact ⟨by simpa [max_retries] using h2, by simp⟩

/-- Witness for `C6_retry_policy` at a concrete input: with every
attempt conflicting, the user sync raises a `DatabaseError` and its
delay list is exactly the exponential backoff sequence. -/
theorem C6_retry_policy_witness :
    (∃ c, (sync_user_data "user_1" ⟨"a@b.c", none, none, false, none⟩ 0
        (fun _ => some DbConflict.operationalError) none).1 = SyncOutcome.databaseError c) ∧
    (sync_user_data "user_1" ⟨"a@b.c", none, none, false, none⟩ 0
        (fun _ => some DbConflict.operationalError) none).2.2 =
      (List.range (sync_user_data "user_1" ⟨"a@b.c", none, none, false, none⟩ 0
        (fun _ => some DbConflict.operationalError) none).2.2.length).map backoff_ms :=
  ⟨((C6_retry_policy.1 "user_1" ⟨"a@b.c", none, none, false, none⟩ 0
      (fun _ => some DbConflict.operationalError) none).2.2.1).mpr (fun _ _ => rfl),
   (C6_retry_policy.1 "user_1" ⟨"a@b.c", none, none, false, none⟩ 0
      (fun _ => some DbConflict.operationalError) none).2.1⟩

/-- C5 counterexample: (a) when no local organization row exists and the
first insert attempt hits a conflict, the retry fetches the remote
organization again — two fetches in one outer call, refuting "fetched
exactly once per outer call, never re-fetched on a retry attempt";
(b) when a local row exists, `sync_organization` returns it unchanged —
the row's name stays "Old Name" although the remote now says
"New Name" — refuting "each attempt that finds an existing local row
updates that row in place from the fetched remote data". -/
theorem C5_counterexample :
    (sync_organization ⟨"org_42", "New Name"⟩
        (fun n => if n = 0 then some DbConflict.integrityError else none) none).2.2.2 = 2 ∧
    (sync_organization ⟨"org_42", "New Name"⟩ (fun _ => none)
        (some ⟨"org_42", "Old Name", "old-name"⟩)).1 =
      SyncOutcome.ok ⟨"org_42", "Old Name", "old-name"⟩ ∧
    ("Old Name" : String) ≠ "New Name" := by
  decide

/-- C5 (amended): for the user sync the remote data is supplied as
arguments fetched once by the caller before the retry loop, and every
attempt that finds an existing row commits exactly that row updated in
place from the supplied data; for the organization sync an attempt that
finds an existing row returns it unchanged and performs no remote
fetch, while with no existing row the remote organization is fetched
once per executed attempt (so a conflicted attempt causes a re-fetch on
retry). -/
theorem C5_fetch_and_update :
    (∀ (uid : String) (d : UserData) (now : Nat) (conflict : Nat → Option DbConflict)
        (u : UserRow) (r : UserRow),
      (sync_user_data uid d now conflict (some u)).1 = SyncOutcome.ok r →
      r = applyUserUpdate u d now) ∧
    (∀ (remote : OrgRemote) (conflict : Nat → Option DbConflict) (o : OrgRow),
      (sync_organization remote conflict (some o)).2.2.2 = 0 ∧
      ∀ r, (sync_organization remote conflict (some o)).1 = SyncOutcome.ok r → r = o) ∧
    (∀ (remote : OrgRemote) (conflict : Nat → Option DbConflict),
      (sync_organization remote conflict none).2.2.2 =
        (sync_organization remote conflict none).2.2.1.length + 1) := by
  refine ⟨?_, ?_, ?_⟩
  · intro uid d now conflict u r h
    rw [sync_user_data_cases] at h
    rcases h0 : conflict 0 with _ | c0 <;>
      rcases h1 : conflict 1 with _ | c1 <;>
        rcases h2 : conflict 2 with _ | c2 <;>
          simp [h0, h1, h2] at h <;> exact h.symm
  · intro remote conflict o
    rw [sync_organization_cases]
    rcases h0 : conflict 0 with _ | c0 <;>
      rcases h1 : conflict 1 with _ | c1 <;>
        rcases h2 : conflict 2 with _ | c2 <;>
          simp [h0, h1, h2]
  · intro remote conflict
    rw [sync_organization_cases]
    rcases h0 : conflict 0 with _ | c0 <;>
      rcases h1 : conflict 1 with _ | c1 <;>
        rcases h2 : conflict 2 with _ | c2 <;>
          simp [h0, h1, h2]

/-- Witness for `C5_fetch_and_update` at a concrete input. -/
theorem C5_fetch_and_update_witness :
    (sync_organization ⟨"org_1", "Acme"⟩ (fun _ => none)
        (some ⟨"org_1", "Acme", "acme"⟩)).2.2.2 = 0 ∧
    (⟨"org_1", "Acme", "acme"⟩ : OrgRow) = ⟨"org_1", "Acme", "acme"⟩ :=
  ⟨(C5_fetch_and_update.2.1 ⟨"org_1", "Acme"⟩ (fun _ => none) ⟨"org_1", "Acme", "acme"⟩).1,
   (C5_fetch_and_update.2.1 ⟨"org_1", "Acme"⟩ (fun _ => none) ⟨"org_1", "Acme", "acme"⟩).2
     ⟨"org_1", "Acme", "acme"⟩ (by decide)⟩

/-! ## Concurrent first-time sync (C4)

Interleaving model of N callers running the savepoint retry loop of
§4.2 (`_sync_user_data` / `sync_organization`) against the same
never-before-seen remote id.  All callers work from the same remote
data `d` (the remote entity is unchanged during the race), so the row
content is abstracted to `d` itself.  Each attempt has two scheduler
steps: the locked read (`db.get ... with_for_update`), which fixes
whether the attempt will insert or update, and the flush/commit.  An
insert flush conflicts (`IntegrityError` on the primary key) exactly
when another caller's insert committed in between; an update holds the
row lock, so its flush succeeds.  A conflict on the last attempt
(`attempt + 1 = max_retries`) raises `DatabaseError`, modelled by the
`failed` phase. -/

/-- Local state of one caller inside the retry loop. -/
inductive CallerPhase (δ : Type) where
  | ready (attempt : Nat)
  | flushing (attempt : Nat) (isInsert : Bool)
  | finished (result : δ)
  | failed
deriving Repr, DecidableEq

/-- Shared state of the race: the (at most one) stored row for the id
being synced, each caller's phase, and how many inserts have
committed. -/
structure SyncSystem (δ : Type) where
  row : Option δ
  callers : List (CallerPhase δ)
  inserts : Nat
deriving Repr, DecidableEq

/-- One scheduler step: caller `i` (if it exists) advances by one
phase.  `ready`: perform the locked read and plan an insert exactly
when no row exists.  `flushing` an insert: if the row is still absent
the insert commits (the caller returns the mirror built from `d`);
otherwise the flush raises a uniqueness conflict — the savepoint is
rolled back and the caller retries, or fails if this was the last
attempt.  `flushing` an update: overwrite the row from `d` and return
it (for the organization sync the update branch writes nothing, but the
stored row already equals `d`, so the resulting state is the same). -/
def syncStep (d : δ) (s : SyncSystem δ) (i : Nat) : SyncSystem δ :=
  match s.callers[i]? with
  | none => s
  | some (CallerPhase.ready a) =>
      { s with callers := s.callers.set i (CallerPhase.flushing a s.row.isNone) }
  | some (CallerPhase.flushing a true) =>
      match s.row with
      | none =>
          { row := some d
            callers := s.callers.set i (CallerPhase.finished d)
            inserts := s.inserts + 1 }
      | some _ =>
          if a + 1 = max_retries then
            { s with callers := s.callers.set i (CallerPhase.failed) }
          else
            { s with callers := s.callers.set i (CallerPhase.ready (a + 1)) }
  | some (CallerPhase.flushing _ false) =>
      { s with
        row := some d
        callers := s.callers.set i (CallerPhase.finished d) }
  | some (CallerPhase.finished _) => s
  | some CallerPhase.failed => s

/-- Run a whole schedule (a list of caller indices) from a state. -/
def runSched (d : δ) (s : SyncSystem δ) : List Nat → SyncSystem δ
  | [] => s
  | i :: rest => runSched d (syncStep d s i) rest

/-- Initial state of the race: no row for the remote id yet, `n`
callers each about to run attempt 0. -/
def initSync (δ : Type) (n : Nat) : SyncSystem δ :=
  ⟨none, List.replicate n (CallerPhase.ready 0), 0⟩

/-- Membership from an index lookup. -/
lemma mem_of_getElemOpt {l : List α} {i : Nat} {a : α} (h : l[i]? = some a) : a ∈ l := by
  have hi : i < l.length := by
    by_contra hib
    rw [List.getElem?_eq_none (Nat.le_of_not_lt hib)] at h
    cases h
  rw [List.getElem?_eq_getElem hi] at h
  injection h with h
  exact h ▸ List.getElem_mem hi

/-- Invariant of the race for remote data `d` and `n` callers: the
stored row is absent or holds exactly `d`; the number of committed
inserts is 0 before the row exists and 1 afterwards; every caller past
attempt 0, every caller about to flush an update, and every finished
caller has seen the row present; an insert flush can only belong to
attempt 0; and no caller has failed. -/
def SyncInv (d : δ) (n : Nat) (s : SyncSystem δ) : Prop :=
  s.callers.length = n ∧
  (s.row = none → s.inserts = 0) ∧
  (∀ x, s.row = some x → x = d ∧ s.inserts = 1) ∧
  ∀ p ∈ s.callers,
    (∀ a, p = CallerPhase.ready a → a < max_retries ∧ (0 < a → s.row = some d)) ∧
    (∀ a b, p = CallerPhase.flushing a b →
      a < max_retries ∧ (b = true → a = 0) ∧ (b = false → s.row = some d)) ∧
    (∀ r, p = CallerPhase.finished r → r = d ∧ s.row = some d) ∧
    p ≠ CallerPhase.failed

lemma syncInv_init (d : δ) (n : Nat) : SyncInv d n (initSync δ n) := by
  refine ⟨List.length_replicate _ _, fun _ => rfl, by simp [initSync], ?_⟩
  intro p hp
  have hp' : p = CallerPhase.ready 0 := List.eq_of_mem_replicate hp
  subst hp'
  refine ⟨?_, by simp, by simp, by simp⟩
  intro a ha
  cases ha
  exact ⟨by norm_num [max_retries], by omega⟩

lemma syncInv_step (d : δ) (n : Nat) (s : SyncSystem δ) (i : Nat)
    (h : SyncInv d n s) : SyncInv d n (syncStep d s i) := by
  obtain ⟨hlen, hnone, hsome, hcall⟩ := h
  unfold syncStep
  cases hgi : s.callers[i]? with
  | none => exact ⟨hlen, hnone, hsome, hcall⟩
  | some p =>
    have hpmem : p ∈ s.callers := mem_of_getElemOpt hgi
    have hp := hcall p hpmem
    cases p with
    | ready a =>
      obtain ⟨halt, hapos⟩ := hp.1 a rfl
      refine ⟨by simpa using hlen, hnone, hsome, ?_⟩
      intro q hq
      rcases List.mem_or_eq_of_mem_set hq with hq' | hq'
      · exact hcall q hq'
      · subst hq'
        refine ⟨by simp, ?_, by simp, by simp⟩
        intro a' b' hab
        injection hab with ha' hb'
        subst ha'
        refine ⟨halt, ?_, ?_⟩
        · intro hbt
          rw [hbt] at hb'
          by_contra hane
          have := hapos (Nat.pos_of_ne_zero hane)
          rw [this] at hb'
          simp at hb'
        · intro hbf
          rw [hbf] at hb'
          cases hrow : s.row with
          | none => rw [hrow] at hb'; simp at hb'
          | some x => exact congrArg some (hsome x hrow).1
    | flushing a b =>
      obtain ⟨halt, hbzero, hbrow⟩ := hp.2.1 a b rfl
      cases b with
      | true =>
        cases hrow : s.row with
        | none =>
          simp only [hrow]
          refine ⟨by simpa using hlen, by simp, ?_, ?_⟩
          · intro x hx
            simp only at hx
            injection hx with hx
            exact ⟨hx.symm, by simp [hnone hrow]⟩
          · intro q hq
            simp only at hq
            rcases List.mem_or_eq_of_mem_set hq with hq' | hq'
            · obtain ⟨q1, q2, q3, q4⟩ := hcall q hq'
              refine ⟨?_, ?_, ?_, q4⟩
              · intro a' ha'
                exact ⟨(q1 a' ha').1, fun _ => rfl⟩
              · intro a' b' hab
                exact ⟨(q2 a' b' hab).1, (q2 a' b' hab).2.1, fun _ => rfl⟩
              · intro r hr
                exact ⟨(q3 r hr).1, rfl⟩
            · subst hq'
              refine ⟨by simp, by simp, ?_, by simp⟩
              intro r hr
              injection hr with hr
              exact ⟨hr.symm, rfl⟩
        | some x =>
          have ha0 : a = 0 := hbzero rfl
          subst ha0
          have hxd : x = d := (hsome x hrow).1
          have hne : ¬ (0 + 1 = max_retries) := by norm_num [max_retries]
          simp only [hne, if_false]
          refine ⟨by simpa using hlen, by simp, ?_, ?_⟩
          · intro y hy
            simp only at hy
            injection hy with hy
            exact ⟨hy ▸ hxd, (hsome x hrow).2⟩
          · intro q hq
            simp only at hq
            rcases List.mem_or_eq_of_mem_set hq with hq' | hq'
            · obtain ⟨q1, q2, q3, q4⟩ := hcall q hq'
              refine ⟨?_, ?_, ?_, q4⟩
              · intro a' ha'
                exact ⟨(q1 a' ha').1, fun _ => congrArg some hxd⟩
              · intro a' b' hab
                exact ⟨(q2 a' b' hab).1, (q2 a' b' hab).2.1, fun _ => congrArg some hxd⟩
              · intro r hr
                exact ⟨(q3 r hr).1, congrArg some hxd⟩
            · subst hq'
              refine ⟨?_, by simp, by simp, by simp⟩
              intro a' ha'
              injection ha' with ha'
              subst ha'
              exact ⟨by norm_num [max_retries], fun _ => congrArg some hxd⟩
      | false =>
        have hrowd : s.row = some d := hbrow rfl
        refine ⟨by simpa using hlen, by simp, ?_, ?_⟩
        · intro x hx
          simp only at hx
          injection hx with hx
          exact ⟨hx.symm, by simpa using (hsome d hrowd).2⟩
        · intro q hq
          simp only at hq
          rcases List.mem_or_eq_of_mem_set hq with hq' | hq'
          · obtain ⟨q1, q2, q3, q4⟩ := hcall q hq'
            refine ⟨?_, ?_, ?_, q4⟩
            · intro a' ha'
              exact ⟨(q1 a' ha').1, fun _ => rfl⟩
            · intro a' b' hab
              exact ⟨(q2 a' b' hab).1, (q2 a' b' hab).2.1, fun _ => rfl⟩
            · intro r hr
              exact ⟨(q3 r hr).1, rfl⟩
          · subst hq'
            refine ⟨by simp, by simp, ?_, by simp⟩
            intro r hr
            injection hr with hr
            exact ⟨hr.symm, rfl⟩
    | finished r => exact ⟨hlen, hnone, hsome, hcall⟩
    | failed => exact ⟨hlen, hnone, hsome, hcall⟩

lemma syncInv_run (d : δ) (n : Nat) (s : SyncSystem δ) (sched : List Nat)
    (h : SyncInv d n s) : SyncInv d n (runSched d s sched) := by
  induction sched generalizing s with
  | nil => exact h
  | cons i rest ih => exact ih _ (syncInv_step d n s i h)

/-- Whether a caller has completed its sync call and holds a result. -/
def CallerPhase.isDone : CallerPhase δ → Bool
  | CallerPhase.finished _ => true
  | _ => false

/-- C4: N callers concurrently syncing the same never-before-seen remote
id, under every interleaving: no caller ever exhausts its retries
(`DatabaseError` is unreachable), every caller that has returned holds
exactly the mirror data `d`, at most one insert ever commits, and once
all callers have returned, the table holds exactly one row for the id,
exactly one insert succeeded, and all N callers received the same
mirror data. -/
theorem C4_concurrent_first_sync (δ : Type) (d : δ) (n : Nat) (hn : 0 < n)
    (sched : List Nat) :
    (∀ p ∈ (runSched d (initSync δ n) sched).callers, p ≠ CallerPhase.failed) ∧
    (∀ r, CallerPhase.finished r ∈ (runSched d (initSync δ n) sched).callers → r = d) ∧
    (runSched d (initSync δ n) sched).inserts ≤ 1 ∧
    ((∀ p ∈ (runSched d (initSync δ n) sched).callers, p.isDone = true) →
      (runSched d (initSync δ n) sched).row = some d ∧
      (runSched d (initSync δ n) sched).inserts = 1 ∧
      ∀ p ∈ (runSched d (initSync δ n) sched).callers, p = CallerPhase.finished d) := by
  obtain ⟨hlen, hnone, hsome, hcall⟩ :=
    syncInv_run d n (initSync δ n) sched (syncInv_init d n)
  refine ⟨?_, ?_, ?_, ?_⟩
  · intro p hp
    exact (hcall p hp).2.2.2
  · intro r hr
    exact ((hcall _ hr).2.2.1 r rfl).1
  · cases hrow : (runSched d (initSync δ n) sched).row with
    | none => rw [hnone hrow]; norm_num
    | some x => rw [(hsome x hrow).2]
  · intro hall
    have hpos : 0 < (runSched d (initSync δ n) sched).callers.length := by
      rw [hlen]; exact hn
    obtain ⟨p, hp⟩ := List.exists_mem_of_length_pos hpos
    have hrd : ∀ q ∈ (runSched d (initSync δ n) sched).callers,
        q = CallerPhase.finished d := by
      intro q hq
      cases q with
      | finished r => rw [((hcall _ hq).2.2.1 r rfl).1]
      | ready a => have := hall _ hq; simp [CallerPhase.isDone] at this
      | flushing a b => have := hall _ hq; simp [CallerPhase.isDone] at this
      | failed => have := hall _ hq; simp [CallerPhase.isDone] at this
    have hprow : (runSched d (initSync δ n) sched).row = some d := by
      have hpd := hrd p hp
      subst hpd
      exact ((hcall _ hp).2.2.1 d rfl).2
    exact ⟨hprow, (hsome d hprow).2, hrd⟩

/-- Witness for `C4_concurrent_first_sync` at a concrete input: two
callers race on the same id; the schedule lets both read an absent row,
caller 0 commit its insert, caller 1 hit the uniqueness conflict, retry,
find the row, and finish as an update. -/
theorem C4_concurrent_first_sync_witness :
    (runSched 42 (initSync Nat 2) [0, 1, 0, 1, 1, 1]).row = some 42 ∧
    (runSched 42 (initSync Nat 2) [0, 1, 0, 1, 1, 1]).inserts = 1 ∧
    ∀ p ∈ (runSched 42 (initSync Nat 2) [0, 1, 0, 1, 1, 1]).callers,
      p = CallerPhase.finished 42 :=
  (C4_concurrent_first_sync Nat 42 2 (by decide) [0, 1, 0, 1, 1, 1]).2.2.2 (by decide)

/-! ## Audit ingestion pipeline (`app/services/audit_service.py`)

`sync_workos_events` fetches one page of remote events, deduplicates
each id-bearing event against the records already committed (the
session has `autoflush=False`, so the dedup SELECT does not see the
rows added earlier in the same run), normalizes the remainder, and
commits once per page; the whole body sits in one `try`, whose `except`
rolls the session back and returns 0.  `uuid4()` is modelled by a
monotone supply counter: `AuditRecord.id` takes the next counter value
and a missing remote event id gets the fallback dedup key
`DedupKey.generated n` with a fresh `n` (distinct uuids never collide,
so generated keys live in a namespace of their own, apart from the
remote ids). -/

/-- The value stored under `event_metadata["workos_id"]`: the remote
provider's event id when present, else a freshly generated uuid. -/
inductive DedupKey where
  | remote (id : String)
  | generated (n : Nat)
deriving Repr, DecidableEq

/-- One remote audit event as consumed by `sync_workos_events`, after
the dict/attribute shape-sniffing of actor and context (both shapes
yield the same extracted fields, with `""` / `None` defaults).
`occurred_at` is kept as the raw string handed to
`datetime.fromisoformat`; a missing field means the ingestion timestamp
is used instead.  `action` is `None` when the remote event lacks the
attribute (`getattr(workos_event, "action", "unknown")`). -/
structure RemoteEvent where
  id : Option String
  actor_id : String
  actor_name : String
  targets : List (Option String × Option String × Option String)
  ip_address : Option String
  user_agent : Option String
  occurred_at : Option String
  action : Option String
deriving Repr, DecidableEq

/-- A stored `AuditEvent` row (`app/models/audit.py`), with
`event_metadata` restricted to its `workos_id` entry (`dedup_key`,
absent for locally created events whose caller-supplied metadata has no
`workos_id`). -/
structure AuditRecord where
  id : Nat
  organization_id : String
  user_id : String
  user_email : String
  action : String
  target_type : Option String
  target_id : Option String
  target_name : Option String
  ip_address : Option String
  user_agent : Option String
  dedup_key : Option DedupKey
  occurred_at : Nat
  source : String
deriving Repr, DecidableEq

/-- The per-event normalization body of the `for workos_event in
events_response.data` loop: extract actor/target/context fields (first
target only), parse `occurred_at` — a present but unparsable timestamp
raises (`None` result), a missing one falls back to `utcnow()` — and
build the `AuditEvent` with `source="workos"` and the given dedup key
under `event_metadata["workos_id"]`. -/
def normalizeEvent (parse : String → Option Nat) (now : Nat) (orgId : String)
    (e : RemoteEvent) (key : DedupKey) (rid : Nat) : Option AuditRecord :=
  let tgt := e.targets.head?.getD (none, none, none)
  match e.occurred_at with
  | some s =>
    match parse s with
    | none => none
    | some t =>
        some ⟨rid, orgId, e.actor_id, e.actor_name, e.action.getD "unknown",
          tgt.1, tgt.2.1, tgt.2.2, e.ip_address, e.user_agent, some key, t, "workos"⟩
  | none =>
      some ⟨rid, orgId, e.actor_id, e.actor_name, e.action.getD "unknown",
        tgt.1, tgt.2.1, tgt.2.2, e.ip_address, e.user_agent, some key, now, "workos"⟩

/-- The dedup SELECT: does any committed record carry
`event_metadata["workos_id"] == event_id`?  (The query filters on the
metadata key only — it is not scoped to the organization.) -/
def hasRemoteKey (db : List AuditRecord) (eid : String) : Bool :=
  db.any (fun r => decide (r.dedup_key = some (DedupKey.remote eid)))

/-- Python truthiness of the remote event id, as used by the page loop
(`event_id = getattr(workos_event, "id", None)` followed by
`if event_id:` and `event_id or str(uuid4())`): an absent id and the
empty string are both falsy, so both take the no-id path. -/
def truthyId : Option String → Option String
  | some s => if s = "" then none else some s
  | none => none

lemma truthyId_eq_some {o : Option String} {s : String}
    (h : truthyId o = some s) : o = some s ∧ s ≠ "" := by
  cases o with
  | none => cases h
  | some t =>
    by_cases ht : t = ""
    · rw [truthyId, if_pos ht] at h; cases h
    · rw [truthyId, if_neg ht] at h
      injection h with h
      subst h
      exact ⟨rfl, ht⟩

lemma truthyId_eq_none {o : Option String} (h : truthyId o = none) :
    o = none ∨ o = some "" := by
  cases o with
  | none => exact Or.inl rfl
  | some t =>
    by_cases ht : t = ""
    · exact Or.inr (by rw [ht])
    · rw [truthyId, if_neg ht] at h; cases h

/-- The page loop of `sync_workos_events`: for each event with a truthy
id (`if event_id:` — present and non-empty), one already present in the
committed records (`db0`) is skipped; an event with a falsy id (absent
or `""`) gets no dedup lookup and the fallback uuid dedup key
(`event_id or str(uuid4())`).  A non-skipped event is normalized — a
normalization failure propagates out of the loop (`none`) — and the new
record is accumulated in the session (`pending`) with the synced count
incremented.  The supply counter advances once per generated record id
and once more per generated fallback dedup key. -/
def processPage (parse : String → Option Nat) (now : Nat) (orgId : String)
    (db0 : List AuditRecord) :
    List RemoteEvent → List AuditRecord → Nat → Nat →
      Option (List AuditRecord × Nat × Nat)
  | [], pending, cnt, supply => some (pending, cnt, supply)
  | e :: rest, pending, cnt, supply =>
    match truthyId e.id with
    | some eid =>
      if hasRemoteKey db0 eid then
        processPage parse now orgId db0 rest pending cnt supply
      else
        match normalizeEvent parse now orgId e (DedupKey.remote eid) supply with
        | none => none
        | some r =>
            processPage parse now orgId db0 rest (pending ++ [r]) (cnt + 1) (supply + 1)
    | none =>
      match normalizeEvent parse now orgId e (DedupKey.generated supply) (supply + 1) with
      | none => none
      | some r =>
          processPage parse now orgId db0 rest (pending ++ [r]) (cnt + 1) (supply + 2)

/-- `AuditService.sync_workos_events`: an empty (or missing) page
returns 0 immediately; otherwise the page loop runs and the pending
records are committed in one batch, returning the count of newly
inserted records — unless anything in the loop raised, in which case
the `except` branch logs, rolls the session back (no record of the page
is persisted), and returns 0.  Returns (count, database, supply). -/
def sync_workos_events (parse : String → Option Nat) (now : Nat) (orgId : String)
    (page : List RemoteEvent) (db : List AuditRecord) (supply : Nat) :
    Nat × List AuditRecord × Nat :=
  if page.isEmpty then (0, db, supply)
  else
    match processPage parse now orgId db page [] 0 supply with
    | some (pending, cnt, s) => (cnt, db ++ pending, s)
    | none => (0, db, supply)

/-- The `AuditEventCreate` payload for `create_custom_event`, with the
caller-supplied `event_metadata` restricted to its optional `workos_id`
entry. -/
structure AuditEventCreateData where
  organization_id : String
  user_id : String
  user_email : String
  action : String
  target_type : Option String
  target_id : Option String
  target_name : Option String
  ip_address : Option String
  user_agent : Option String
  metadata_workos_id : Option String
  occurred_at : Nat
  source : String
deriving Repr, DecidableEq

/-- `AuditService.create_custom_event`: build an `AuditEvent` directly
from the caller's payload — no dedup check of any kind — and commit it.
Returns (created record, database, supply). -/
def create_custom_event (data : AuditEventCreateData) (db : List AuditRecord)
    (supply : Nat) : AuditRecord × List AuditRecord × Nat :=
  let r : AuditRecord :=
    ⟨supply, data.organization_id, data.user_id, data.user_email, data.action,
      data.target_type, data.target_id, data.target_name, data.ip_address,
      data.user_agent, data.metadata_workos_id.map DedupKey.remote,
      data.occurred_at, data.source⟩
  (r, db ++ [r], supply + 1)

/-- States (database, uuid supply) reachable through the core's two
audit operations. -/
inductive AuditReachable : List AuditRecord × Nat → Prop where
  | init : AuditReachable ([], 0)
  | sync (parse : String → Option Nat) (now : Nat) (orgId : String)
      (page : List RemoteEvent) (st : List AuditRecord × Nat)
      (h : AuditReachable st) :
      AuditReachable ((sync_workos_events parse now orgId page st.1 st.2).2.1,
        (sync_workos_events parse now orgId page st.1 st.2).2.2)
  | create (data : AuditEventCreateData) (st : List AuditRecord × Nat)
      (h : AuditReachable st) :
      AuditReachable ((create_custom_event data st.1 st.2).2.1,
        (create_custom_event data st.1 st.2).2.2)

/-- The remote event ids carried by a page. -/
def pageIds (page : List RemoteEvent) : List String :=
  page.filterMap RemoteEvent.id

/-- States reachable when every synced page carries pairwise-distinct
remote event ids and every locally created event's metadata carries no
`workos_id` — the discipline under which the dedup invariant is
preserved. -/
inductive AuditReachableDisciplined : List AuditRecord × Nat → Prop where
  | init : AuditReachableDisciplined ([], 0)
  | sync (parse : String → Option Nat) (now : Nat) (orgId : String)
      (page : List RemoteEvent) (st : List AuditRecord × Nat)
      (hids : (pageIds page).Nodup)
      (h : AuditReachableDisciplined st) :
      AuditReachableDisciplined ((sync_workos_events parse now orgId page st.1 st.2).2.1,
        (sync_workos_events parse now orgId page st.1 st.2).2.2)
  | create (data : AuditEventCreateData) (st : List AuditRecord × Nat)
      (hmeta : data.metadata_workos_id = none)
      (h : AuditReachableDisciplined st) :
      AuditReachableDisciplined ((create_custom_event data st.1 st.2).2.1,
        (create_custom_event data st.1 st.2).2.2)

/-- Two records carry the same dedup key within the same organization. -/
def SameKey (r1 r2 : AuditRecord) : Prop :=
  r1.organization_id = r2.organization_id ∧
  ∃ k, r1.dedup_key = some k ∧ r2.dedup_key = some k

/-- The dedup invariant of the spec's data model: no two records carry
the same dedup key within the same organization. -/
def DedupInv (db : List AuditRecord) : Prop :=
  db.Pairwise (fun a b => ¬ SameKey a b)

/-- All generated (uuid fallback) dedup keys in the database are below
the supply counter — freshness of the uuid model. -/
def GenBound (db : List AuditRecord) (supply : Nat) : Prop :=
  ∀ r ∈ db, ∀ m, r.dedup_key = some (DedupKey.generated m) → m < supply

/-- Whether normalizing `e` raises: its `occurred_at` is present but
unparsable.  This is independent of the ingestion time, the dedup key,
and the record id. -/
def normFails (parse : String → Option Nat) (e : RemoteEvent) : Bool :=
  match e.occurred_at with
  | some s => (parse s).isNone
  | none => false

lemma normalizeEvent_eq_none_iff {parse : String → Option Nat} {now : Nat}
    {orgId : String} {e : RemoteEvent} {key : DedupKey} {rid : Nat} :
    normalizeEvent parse now orgId e key rid = none ↔ normFails parse e = true := by
  unfold normalizeEvent normFails
  cases ho : e.occurred_at with
  | none => simp
  | some s =>
    cases hp : parse s with
    | none => simp [hp]
    | some t => simp [hp]

lemma normalizeEvent_key {parse : String → Option Nat} {now : Nat} {orgId : String}
    {e : RemoteEvent} {key : DedupKey} {rid : Nat} {r : AuditRecord}
    (h : normalizeEvent parse now orgId e key rid = some r) :
    r.dedup_key = some key ∧ r.organization_id = orgId := by
  cases ho : e.occurred_at with
  | none =>
    simp only [normalizeEvent, ho, Option.some.injEq] at h
    exact ⟨by rw [← h], by rw [← h]⟩
  | some s =>
    cases hp : parse s with
    | none =>
      rw [normalizeEvent_eq_none_iff.mpr (by simp [normFails, ho, hp])] at h
      cases h
    | some t =>
      simp only [normalizeEvent, ho, hp, Option.some.injEq] at h
      exact ⟨by rw [← h], by rw [← h]⟩

lemma processPage_pending_prefix (parse : String → Option Nat) (now : Nat)
    (orgId : String) (db0 : List AuditRecord) :
    ∀ (page : List RemoteEvent) (pending : List AuditRecord) (cnt supply : Nat)
      (p' : List AuditRecord) (c' s' : Nat),
      processPage parse now orgId db0 page pending cnt supply = some (p', c', s') →
      ∃ suffix, p' = pending ++ suffix := by
  intro page
  induction page with
  | nil =>
    intro pending cnt supply p' c' s' h
    simp only [processPage, Option.some.injEq, Prod.mk.injEq] at h
    exact ⟨[], by rw [← h.1, List.append_nil]⟩
  | cons e rest ih =>
    intro pending cnt supply p' c' s' h
    cases hid : truthyId e.id with
    | some eid =>
      cases hfound : hasRemoteKey db0 eid with
      | true =>
        simp only [processPage, hid, hfound, if_true] at h
        exact ih _ _ _ _ _ _ h
      | false =>
        cases hnorm : normalizeEvent parse now orgId e (DedupKey.remote eid) supply with
        | none => simp [processPage, hid, hfound, hnorm] at h
        | some r =>
          simp only [processPage, hid, hfound, hnorm, Bool.false_eq_true, if_false] at h
          obtain ⟨suffix, hs⟩ := ih _ _ _ _ _ _ h
          refine ⟨r :: suffix, ?_⟩
          rw [hs, List.append_assoc]
          rfl
    | none =>
      cases hnorm : normalizeEvent parse now orgId e (DedupKey.generated supply) (supply + 1) with
      | none => simp [processPage, hid, hnorm] at h
      | some r =>
        simp only [processPage, hid, hnorm] at h
        obtain ⟨suffix, hs⟩ := ih _ _ _ _ _ _ h
        refine ⟨r :: suffix, ?_⟩
        rw [hs, List.append_assoc]
        rfl

lemma processPage_all_found (parse : String → Option Nat) (now : Nat)
    (orgId : String) (db0 : List AuditRecord) :
    ∀ (page : List RemoteEvent) (pending : List AuditRecord) (cnt supply : Nat),
      (∀ e ∈ page, ∃ eid, truthyId e.id = some eid ∧ hasRemoteKey db0 eid = true) →
      processPage parse now orgId db0 page pending cnt supply =
        some (pending, cnt, supply) := by
  intro page
  induction page with
  | nil => intro pending cnt supply _; rfl
  | cons e rest ih =>
    intro pending cnt supply hall
    obtain ⟨eid, hid, hfound⟩ := hall e (List.mem_cons_self _ _)
    simp only [processPage, hid, hfound, if_true]
    exact ih _ _ _ (fun e' he' => hall e' (List.mem_cons_of_mem _ he'))

lemma processPage_fail_indep (parse : String → Option Nat) (now : Nat)
    (orgId : String) (db0 : List AuditRecord) :
    ∀ (page : List RemoteEvent) (pending : List AuditRecord) (cnt supply : Nat),
      processPage parse now orgId db0 page pending cnt supply = none →
      ∀ (now2 : Nat) (pending2 : List AuditRecord) (cnt2 supply2 : Nat),
        processPage parse now2 orgId db0 page pending2 cnt2 supply2 = none := by
  intro page
  induction page with
  | nil =>
    intro pending cnt supply h
    simp [processPage] at h
  | cons e rest ih =>
    intro pending cnt supply h now2 pending2 cnt2 supply2
    cases hid : truthyId e.id with
    | some eid =>
      cases hfound : hasRemoteKey db0 eid with
      | true =>
        simp only [processPage, hid, hfound, if_true] at h ⊢
        exact ih _ _ _ h now2 _ _ _
      | false =>
        simp only [processPage, hid, hfound, Bool.false_eq_true, if_false] at h ⊢
        cases hnorm : normalizeEvent parse now orgId e (DedupKey.remote eid) supply with
        | none =>
          have hfail : normFails parse e = true := normalizeEvent_eq_none_iff.mp hnorm
          have hnorm2 : normalizeEvent parse now2 orgId e (DedupKey.remote eid) supply2 = none :=
            normalizeEvent_eq_none_iff.mpr hfail
          rw [hnorm2]
        | some r =>
          rw [hnorm] at h
          cases hnorm2 : normalizeEvent parse now2 orgId e (DedupKey.remote eid) supply2 with
          | none => rfl
          | some r2 => exact ih _ _ _ h now2 _ _ _
    | none =>
      simp only [processPage, hid] at h ⊢
      cases hnorm : normalizeEvent parse now orgId e (DedupKey.generated supply) (supply + 1) with
      | none =>
        have hfail : normFails parse e = true := normalizeEvent_eq_none_iff.mp hnorm
        have hnorm2 : normalizeEvent parse now2 orgId e (DedupKey.generated supply2)
            (supply2 + 1) = none :=
          normalizeEvent_eq_none_iff.mpr hfail
        rw [hnorm2]
      | some r =>
        rw [hnorm] at h
        cases hnorm2 : normalizeEvent parse now2 orgId e (DedupKey.generated supply2)
            (supply2 + 1) with
        | none => rfl
        | some r2 => exact ih _ _ _ h now2 _ _ _

lemma processPage_covers (parse : String → Option Nat) (now : Nat)
    (orgId : String) (db0 : List AuditRecord) :
    ∀ (page : List RemoteEvent) (pending : List AuditRecord) (cnt supply : Nat)
      (p' : List AuditRecord) (c' s' : Nat),
      processPage parse now orgId db0 page pending cnt supply = some (p', c', s') →
      ∀ e ∈ page, ∀ eid, truthyId e.id = some eid →
        hasRemoteKey db0 eid = true ∨
          ∃ r ∈ p', r.dedup_key = some (DedupKey.remote eid) := by
  intro page
  induction page with
  | nil => intro _ _ _ _ _ _ _ e he; cases he
  | cons e rest ih =>
    intro pending cnt supply p' c' s' h e' he' eid hid'
    rcases List.mem_cons.mp he' with rfl | hmem
    · cases hfound : hasRemoteKey db0 eid with
      | true => exact Or.inl rfl
      | false =>
        right
        simp only [processPage, hid', hfound, Bool.false_eq_true, if_false] at h
        cases hnorm : normalizeEvent parse now orgId e' (DedupKey.remote eid) supply with
        | none => rw [hnorm] at h; cases h
        | some r =>
          rw [hnorm] at h
          obtain ⟨suffix, hs⟩ :=
            processPage_pending_prefix parse now orgId db0 rest _ _ _ _ _ _ h
          refine ⟨r, ?_, (normalizeEvent_key hnorm).1⟩
          rw [hs]
          exact List.mem_append.mpr
            (Or.inl (List.mem_append.mpr (Or.inr (List.mem_singleton.mpr rfl))))
    · cases hid : truthyId e.id with
      | some eidh =>
        cases hfound : hasRemoteKey db0 eidh with
        | true =>
          simp only [processPage, hid, hfound, if_true] at h
          exact ih _ _ _ _ _ _ h e' hmem eid hid'
        | false =>
          simp only [processPage, hid, hfound, Bool.false_eq_true, if_false] at h
          cases hnorm : normalizeEvent parse now orgId e (DedupKey.remote eidh) supply with
          | none => rw [hnorm] at h; cases h
          | some r =>
            rw [hnorm] at h
            exact ih _ _ _ _ _ _ h e' hmem eid hid'
      | none =>
        simp only [processPage, hid] at h
        cases hnorm : normalizeEvent parse now orgId e (DedupKey.generated supply)
            (supply + 1) with
        | none => rw [hnorm] at h; cases h
        | some r =>
          rw [hnorm] at h
          exact ih _ _ _ _ _ _ h e' hmem eid hid'

lemma processPage_good (parse : String → Option Nat) (now : Nat)
    (orgId : String) (db0 : List AuditRecord) :
    ∀ (page : List RemoteEvent) (pending : List AuditRecord) (cnt supply : Nat)
      (p' : List AuditRecord) (c' s' : Nat),
      (pageIds page).Nodup →
      DedupInv (db0 ++ pending) →
      GenBound (db0 ++ pending) supply →
      (∀ e ∈ page, ∀ eid, truthyId e.id = some eid →
        ∀ r ∈ pending, r.dedup_key ≠ some (DedupKey.remote eid)) →
      processPage parse now orgId db0 page pending cnt supply = some (p', c', s') →
      DedupInv (db0 ++ p') ∧ GenBound (db0 ++ p') s' := by
  intro page
  induction page with
  | nil =>
    intro pending cnt supply p' c' s' _ hinv hgen _ h
    simp only [processPage, Option.some.injEq, Prod.mk.injEq] at h
    obtain ⟨h1, -, h3⟩ := h
    subst h1
    subst h3
    exact ⟨hinv, hgen⟩
  | cons e rest ih =>
    intro pending cnt supply p' c' s' hids hinv hgen hfresh h
    cases hid : truthyId e.id with
    | some eid =>
      obtain ⟨hid2, heid_ne⟩ := truthyId_eq_some hid
      have hpids : pageIds (e :: rest) = eid :: pageIds rest := by
        simp [pageIds, List.filterMap_cons, hid2]
      rw [hpids, List.nodup_cons] at hids
      obtain ⟨heid_not, hids'⟩ := hids
      cases hfound : hasRemoteKey db0 eid with
      | true =>
        simp only [processPage, hid, hfound, if_true] at h
        exact ih _ _ _ _ _ _ hids' hinv hgen
          (fun e' he' => hfresh e' (List.mem_cons_of_mem _ he')) h
      | false =>
        simp only [processPage, hid, hfound, Bool.false_eq_true, if_false] at h
        cases hnorm : normalizeEvent parse now orgId e (DedupKey.remote eid) supply with
        | none => rw [hnorm] at h; cases h
        | some r =>
          rw [hnorm] at h
          have hrkey : r.dedup_key = some (DedupKey.remote eid) :=
            (normalizeEvent_key hnorm).1
          have hinv' : DedupInv ((db0 ++ pending) ++ [r]) := by
            rw [DedupInv, List.pairwise_append]
            refine ⟨hinv, List.pairwise_singleton _ _, ?_⟩
            intro x hx y hy
            rw [List.mem_singleton.mp hy]
            rintro ⟨horg, k, hk1, hk2⟩
            rw [hrkey] at hk2
            injection hk2 with hk2
            subst hk2
            rcases List.mem_append.mp hx with hx' | hx'
            · have hkey : hasRemoteKey db0 eid = true := by
                unfold hasRemoteKey
                rw [List.any_eq_true]
                exact ⟨x, hx', by rw [hk1]; exact decide_eq_true rfl⟩
              rw [hfound] at hkey
              cases hkey
            · exact hfresh e (List.mem_cons_self _ _) eid hid x hx' hk1
          have hgen' : GenBound ((db0 ++ pending) ++ [r]) (supply + 1) := by
            intro r' hr' m hm
            rcases List.mem_append.mp hr' with hr'' | hr''
            · exact Nat.lt_succ_of_lt (hgen r' hr'' m hm)
            · rw [List.mem_singleton.mp hr''] at hm
              rw [hrkey] at hm
              injection hm with hm
              injection hm
          have hfresh' : ∀ e' ∈ rest, ∀ eid', truthyId e'.id = some eid' →
              ∀ r' ∈ pending ++ [r], r'.dedup_key ≠ some (DedupKey.remote eid') := by
            intro e' he' eid' hid' r' hr'
            rcases List.mem_append.mp hr' with hr'' | hr''
            · exact hfresh e' (List.mem_cons_of_mem _ he') eid' hid' r' hr''
            · rw [List.mem_singleton.mp hr'', hrkey]
              intro hcontra
              injection hcontra with hcontra
              injection hcontra with hcontra
              apply heid_not
              rw [hcontra]
              exact List.mem_filterMap.mpr ⟨e', he', (truthyId_eq_some hid').1⟩
          rw [List.append_assoc] at hinv' hgen'
          exact ih _ _ _ _ _ _ hids' hinv' hgen' hfresh' h
    | none =>
      have hids' : (pageIds rest).Nodup := by
        rcases truthyId_eq_none hid with hide | hide
        · have hpids : pageIds (e :: rest) = pageIds rest := by
            simp [pageIds, List.filterMap_cons, hide]
          rwa [hpids] at hids
        · have hpids : pageIds (e :: rest) = "" :: pageIds rest := by
            simp [pageIds, List.filterMap_cons, hide]
          rw [hpids, List.nodup_cons] at hids
          exact hids.2
      simp only [processPage, hid] at h
      cases hnorm : normalizeEvent parse now orgId e (DedupKey.generated supply)
          (supply + 1) with
      | none => rw [hnorm] at h; cases h
      | some r =>
        rw [hnorm] at h
        have hrkey : r.dedup_key = some (DedupKey.generated supply) :=
          (normalizeEvent_key hnorm).1
        have hinv' : DedupInv ((db0 ++ pending) ++ [r]) := by
          rw [DedupInv, List.pairwise_append]
          refine ⟨hinv, List.pairwise_singleton _ _, ?_⟩
          intro x hx y hy
          rw [List.mem_singleton.mp hy]
          rintro ⟨horg, k, hk1, hk2⟩
          rw [hrkey] at hk2
          injection hk2 with hk2
          subst hk2
          exact absurd (hgen x hx _ hk1) (Nat.lt_irrefl supply)
        have hgen' : GenBound ((db0 ++ pending) ++ [r]) (supply + 2) := by
          intro r' hr' m hm
          rcases List.mem_append.mp hr' with hr'' | hr''
          · exact Nat.lt_of_lt_of_le (hgen r' hr'' m hm) (by omega)
          · rw [List.mem_singleton.mp hr''] at hm
            rw [hrkey] at hm
            injection hm with hm
            injection hm with hm
            omega
        have hfresh' : ∀ e' ∈ rest, ∀ eid', truthyId e'.id = some eid' →
            ∀ r' ∈ pending ++ [r], r'.dedup_key ≠ some (DedupKey.remote eid') := by
          intro e' he' eid' hid' r' hr'
          rcases List.mem_append.mp hr' with hr'' | hr''
          · exact hfresh e' (List.mem_cons_of_mem _ he') eid' hid' r' hr''
          · rw [List.mem_singleton.mp hr'', hrkey]
            intro hcontra
            injection hcontra with hcontra
            injection hcontra
        rw [List.append_assoc] at hinv' hgen'
        exact ih _ _ _ _ _ _ hids' hinv' hgen' hfresh' h

lemma auditDisciplined_inv (st : List AuditRecord × Nat)
    (h : AuditReachableDisciplined st) : DedupInv st.1 ∧ GenBound st.1 st.2 := by
  induction h with
  | init => exact ⟨List.Pairwise.nil, by intro r hr; cases hr⟩
  | sync parse now orgId page st hids h ih =>
    obtain ⟨hinv, hgen⟩ := ih
    by_cases hemp : page.isEmpty
    · simpa [sync_workos_events, hemp] using ⟨hinv, hgen⟩
    · cases hrun : processPage parse now orgId st.1 page [] 0 st.2 with
      | none => simpa [sync_workos_events, hemp, hrun] using ⟨hinv, hgen⟩
      | some res =>
        obtain ⟨p', c', s'⟩ := res
        have hres := processPage_good parse now orgId st.1 page [] 0 st.2 p' c' s'
          hids (by simpa using hinv) (by simpa using hgen)
          (by intro e _ eid _ r hr; cases hr) hrun
        simpa [sync_workos_events, hemp, hrun] using hres
  | create data st hmeta h ih =>
    obtain ⟨hinv, hgen⟩ := ih
    constructor
    · show DedupInv (st.1 ++ [_])
      rw [DedupInv, List.pairwise_append]
      refine ⟨hinv, List.pairwise_singleton _ _, ?_⟩
      intro x hx y hy
      rw [List.mem_singleton.mp hy]
      rintro ⟨horg, k, hk1, hk2⟩
      simp [create_custom_event, hmeta] at hk2
    · intro r' hr' m hm
      rcases List.mem_append.mp hr' with hr'' | hr''
      · exact Nat.lt_succ_of_lt (hgen r' hr'' m hm)
      · rw [List.mem_singleton.mp hr''] at hm
        simp [create_custom_event, hmeta] at hm

/-- An event with no remote id: the dedup key falls back to a freshly
generated uuid, so the event can never be recognised on a later run. -/
def sampleNoIdEvent : RemoteEvent :=
  ⟨none, "", "", [], none, none, none, some "user.login"⟩

/-- An event whose remote id is the empty string: `if event_id:` is
falsy, so exactly like an absent id it gets no dedup lookup and a fresh
uuid fallback key (`event_id or str(uuid4())`). -/
def sampleEmptyIdEvent : RemoteEvent :=
  ⟨some "", "", "", [], none, none, none, some "user.login"⟩

/-- A well-formed id-bearing event whose normalization succeeds. -/
def sampleGoodEvent : RemoteEvent :=
  ⟨some "evt_good", "", "", [], none, none, none, some "user.login"⟩

/-- An id-bearing event whose `occurred_at` string does not parse, so
its normalization raises. -/
def sampleBadEvent : RemoteEvent :=
  ⟨some "evt_bad", "", "", [], none, none, some "not-a-timestamp", some "user.logout"⟩

/-- A timestamp parser that rejects every string (the sample pages above
only carry unparsable or absent timestamps). -/
def nullParse : String → Option Nat := fun _ => none

/-- C7 counterexample: a page holding one event with a falsy remote
event id — absent, or equally the empty string — is re-ingested by a
second `syncEvents` invocation against the same unchanged page: the
fallback dedup key is a fresh uuid each run, so the second invocation
returns 1 (not 0) and the table grows to two records. -/
theorem C7_counterexample :
    ((sync_workos_events nullParse 0 "org_1" [sampleNoIdEvent] [] 0).1 = 1 ∧
    (sync_workos_events nullParse 0 "org_1" [sampleNoIdEvent]
        (sync_workos_events nullParse 0 "org_1" [sampleNoIdEvent] [] 0).2.1
        (sync_workos_events nullParse 0 "org_1" [sampleNoIdEvent] [] 0).2.2).1 = 1 ∧
    (sync_workos_events nullParse 0 "org_1" [sampleNoIdEvent]
        (sync_workos_events nullParse 0 "org_1" [sampleNoIdEvent] [] 0).2.1
        (sync_workos_events nullParse 0 "org_1" [sampleNoIdEvent] [] 0).2.2).2.1.length = 2) ∧
    ((sync_workos_events nullParse 0 "org_1" [sampleEmptyIdEvent] [] 0).1 = 1 ∧
    (sync_workos_events nullParse 0 "org_1" [sampleEmptyIdEvent]
        (sync_workos_events nullParse 0 "org_1" [sampleEmptyIdEvent] [] 0).2.1
        (sync_workos_events nullParse 0 "org_1" [sampleEmptyIdEvent] [] 0).2.2).1 = 1 ∧
    (sync_workos_events nullParse 0 "org_1" [sampleEmptyIdEvent]
        (sync_workos_events nullParse 0 "org_1" [sampleEmptyIdEvent] [] 0).2.1
        (sync_workos_events nullParse 0 "org_1" [sampleEmptyIdEvent] [] 0).2.2).2.1.length = 2) := by
  decide

/-- C7 (amended): `syncEvents` is idempotent provided every event of the
page carries a truthy (present, non-empty) remote event id: the second
invocation against the same unchanged page returns 0 and inserts no
record. -/
theorem C7_idempotent_with_ids (parse : String → Option Nat) (now1 now2 : Nat)
    (orgId : String) (page : List RemoteEvent) (db : List AuditRecord) (supply : Nat)
    (hids : ∀ e ∈ page, (truthyId e.id).isSome = true) :
    (sync_workos_events parse now2 orgId page
        (sync_workos_events parse now1 orgId page db supply).2.1
        (sync_workos_events parse now1 orgId page db supply).2.2).1 = 0 ∧
    (sync_workos_events parse now2 orgId page
        (sync_workos_events parse now1 orgId page db supply).2.1
        (sync_workos_events parse now1 orgId page db supply).2.2).2.1 =
      (sync_workos_events parse now1 orgId page db supply).2.1 := by
  by_cases hemp : page.isEmpty
  · simp [sync_workos_events, hemp]
  · cases hrun : processPage parse now1 orgId db page [] 0 supply with
    | none =>
      have hrun2 : processPage parse now2 orgId db page [] 0 supply = none :=
        processPage_fail_indep parse now1 orgId db page [] 0 supply hrun now2 [] 0 supply
      simp [sync_workos_events, hemp, hrun, hrun2]
    | some res =>
      obtain ⟨p', c', s'⟩ := res
      have hcover := processPage_covers parse now1 orgId db page [] 0 supply p' c' s' hrun
      have hall : ∀ e ∈ page, ∃ eid, truthyId e.id = some eid ∧
          hasRemoteKey (db ++ p') eid = true := by
        intro e he
        obtain ⟨eid, hid⟩ := Option.isSome_iff_exists.mp (hids e he)
        refine ⟨eid, hid, ?_⟩
        rcases hcover e he eid hid with hfound | ⟨r, hr, hkey⟩
        · unfold hasRemoteKey at hfound ⊢
          rw [List.any_eq_true] at hfound ⊢
          obtain ⟨x, hx, hxk⟩ := hfound
          exact ⟨x, List.mem_append.mpr (Or.inl hx), hxk⟩
        · unfold hasRemoteKey
          rw [List.any_eq_true]
          exact ⟨r, List.mem_append.mpr (Or.inr hr), decide_eq_true hkey⟩
      have hrun2 := processPage_all_found parse now2 orgId (db ++ p') page [] 0 s' hall
      simp [sync_workos_events, hemp, hrun, hrun2]

/-- Witness for `C7_idempotent_with_ids` at a concrete input. -/
theorem C7_idempotent_with_ids_witness :
    (sync_workos_events nullParse 0 "org_1" [sampleGoodEvent]
        (sync_workos_events nullParse 0 "org_1" [sampleGoodEvent] [] 0).2.1
        (sync_workos_events nullParse 0 "org_1" [sampleGoodEvent] [] 0).2.2).1 = 0 :=
  (C7_idempotent_with_ids nullParse 0 0 "org_1" [sampleGoodEvent] [] 0 (by decide)).1

/-- C8: evaluation of `sync_workos_events` at the failing input — a page
of two events where only the second has an unparsable `occurred_at`.
The single normalization failure aborts the whole page: the first,
perfectly well-formed event is not persisted either, the transaction is
rolled back (the database is unchanged), and the call returns 0 — while
the same good event alone would have synced.  The spec requires the
failing event to be logged and skipped with the rest of the page still
processed. -/
theorem C8_single_failure_aborts_page :
    sync_workos_events nullParse 0 "org_1" [sampleGoodEvent, sampleBadEvent] [] 0 =
      (0, [], 0) ∧
    (sync_workos_events nullParse 0 "org_1" [sampleGoodEvent] [] 0).1 = 1 ∧
    normFails nullParse sampleBadEvent = true ∧
    normFails nullParse sampleGoodEvent = false := by
  decide

/-- C9 counterexample: the dedup invariant is violated in states
reachable through the core's operations.  (a) `createLocalEvent`
bypasses dedup entirely, so two custom events whose caller-supplied
metadata carries the same `workos_id` land as two records with the same
dedup key in the same organization.  (b) Even `syncEvents` alone
violates it: the session runs with `autoflush=False`, so within one page
the dedup SELECT misses the records pending in the session, and a page
carrying the same remote event id twice inserts both copies. -/
theorem C9_counterexample :
    (∃ st : List AuditRecord × Nat, AuditReachable st ∧
      ∃ r1 ∈ st.1, ∃ r2 ∈ st.1,
        r1 ≠ r2 ∧ r1.organization_id = r2.organization_id ∧
        r1.dedup_key.isSome = true ∧ r1.dedup_key = r2.dedup_key) ∧
    (∃ st : List AuditRecord × Nat,
      (∃ page : List RemoteEvent,
        st = ((sync_workos_events nullParse 0 "org_1" page [] 0).2.1,
          (sync_workos_events nullParse 0 "org_1" page [] 0).2.2) ∧
        AuditReachable st) ∧
      ∃ r1 ∈ st.1, ∃ r2 ∈ st.1,
        r1 ≠ r2 ∧ r1.organization_id = r2.organization_id ∧
        r1.dedup_key.isSome = true ∧ r1.dedup_key = r2.dedup_key) := by
  constructor
  · refine ⟨_, AuditReachable.create
      ⟨"org_1", "u", "u@x", "k.create", none, none, none, none, none,
        some "evt_1", 0, "custom"⟩
      ((create_custom_event
        ⟨"org_1", "u", "u@x", "k.create", none, none, none, none, none,
          some "evt_1", 0, "custom"⟩ [] 0).2.1,
       (create_custom_event
        ⟨"org_1", "u", "u@x", "k.create", none, none, none, none, none,
          some "evt_1", 0, "custom"⟩ [] 0).2.2)
      (AuditReachable.create
        ⟨"org_1", "u", "u@x", "k.create", none, none, none, none, none,
          some "evt_1", 0, "custom"⟩ ([], 0) AuditReachable.init), ?_⟩
    decide
  · refine ⟨_, ⟨[sampleGoodEvent, sampleGoodEvent], rfl,
      AuditReachable.sync nullParse 0 "org_1" [sampleGoodEvent, sampleGoodEvent]
        ([], 0) AuditReachable.init⟩, ?_⟩
    decide

/-- C9 (amended): the dedup invariant — no two records with the same
dedup key in the same organization — holds in every state reachable
through `syncEvents` on pages whose id-bearing events carry
pairwise-distinct ids and through `createLocalEvent` calls whose
metadata carries no `workos_id`. -/
theorem C9_dedup_invariant (st : List AuditRecord × Nat)
    (h : AuditReachableDisciplined st) : DedupInv st.1 :=
  (auditDisciplined_inv st h).1

/-- Witness for `C9_dedup_invariant` at a concrete reachable state. -/
theorem C9_dedup_invariant_witness :
    DedupInv (create_custom_event
      ⟨"org_1", "u", "u@x", "k.create", none, none, none, none, none,
        none, 0, "custom"⟩ [] 0).2.1 :=
  C9_dedup_invariant _
    (AuditReachableDisciplined.create
      ⟨"org_1", "u", "u@x", "k.create", none, none, none, none, none,
        none, 0, "custom"⟩ ([], 0) rfl AuditReachableDisciplined.init)

/-! ## Cache-aside store (`app/core/cache.py`)

Every `CacheService` method wraps its body in `try`/`except Exception`;
the storage layer (Redis connection + JSON codec) is modelled by
outcome oracles of type `Except CacheFailure _`, an `error` meaning the
corresponding call raised.  Each Lean function returns a plain value —
the embedding of the guarantee that no storage failure escapes to the
caller — and the theorems pin down the degraded value each failure maps
to. -/

/-- A storage-layer exception (connection error, serialization error,
timeout inside the Redis client). -/
structure CacheFailure where
  message : String
deriving Repr, DecidableEq

/-- `CacheService.get`: connect and fetch (`fetch` covers both
`_get_redis` and `redis.get`); a missing key or a falsy (empty) value
returns `None`; otherwise `json.loads` runs (`deserialize`).  Any raise
is caught and degrades to a miss. -/
def cache_get (fetch : Except CacheFailure (Option String))
    (deserialize : String → Except CacheFailure α) : Option α :=
  match fetch with
  | Except.error _ => none
  | Except.ok none => none
  | Except.ok (some v) =>
    if v = "" then none
    else
      match deserialize v with
      | Except.error _ => none
      | Except.ok x => some x

/-- `CacheService.set`: `json.dumps` (`serialize`) then
`redis.setex(key, ttl, serialized)` (`store`); returns whether the
write happened, any raise degrading to `False`. -/
def cache_set (serialize : Except CacheFailure String)
    (store : String → Nat → Except CacheFailure Unit) (ttl : Nat) : Bool :=
  match serialize with
  | Except.error _ => false
  | Except.ok s =>
    match store s ttl with
    | Except.error _ => false
    | Except.ok _ => true

/-- `CacheService.delete`: `redis.delete(key)`; a raise degrades to
`False`. -/
def cache_delete (del : Except CacheFailure Unit) : Bool :=
  match del with
  | Except.error _ => false
  | Except.ok _ => true

/-- `CacheService.delete_pattern`: scan the matching keys
(`scan_iter`), delete them in one call when any exist, and return how
many were deleted; a raise anywhere degrades to 0. -/
def cache_delete_pattern (scan : Except CacheFailure (List String))
    (del : List String → Except CacheFailure Unit) : Nat :=
  match scan with
  | Except.error _ => 0
  | Except.ok keys =>
    if keys.isEmpty then 0
    else
      match del keys with
      | Except.error _ => 0
      | Except.ok _ => keys.length

/-- C10: no cache operation lets a storage-layer failure escape — each
returns a plain value for every oracle outcome (by its type), and every
failure degrades as specified: a failed or empty fetch and a failed
deserialization are misses; a failed serialization or store reports
`False` while a successful write reports `True`; a failed delete
reports `False`; a failed scan or bulk delete counts 0, a successful
one counts the matched keys. -/
theorem C10_cache_never_raises (α : Type) :
    (∀ (err : CacheFailure) (deserialize : String → Except CacheFailure α),
      cache_get (Except.error err) deserialize = none) ∧
    (∀ deserialize : String → Except CacheFailure α,
      cache_get (Except.ok none) deserialize = none) ∧
    (∀ (v : String) (err : CacheFailure) (deserialize : String → Except CacheFailure α),
      deserialize v = Except.error err →
      cache_get (Except.ok (some v)) deserialize = none) ∧
    (∀ (v : String) (x : α) (deserialize : String → Except CacheFailure α),
      v ≠ "" → deserialize v = Except.ok x →
      cache_get (Except.ok (some v)) deserialize = some x) ∧
    (∀ (err : CacheFailure) (store : String → Nat → Except CacheFailure Unit) (ttl : Nat),
      cache_set (Except.error err) store ttl = false) ∧
    (∀ (s : String) (err : CacheFailure) (ttl : Nat),
      cache_set (Except.ok s) (fun _ _ => Except.error err) ttl = false) ∧
    (∀ (s : String) (ttl : Nat),
      cache_set (Except.ok s) (fun _ _ => Except.ok ()) ttl = true) ∧
    (∀ err : CacheFailure, cache_delete (Except.error err) = false) ∧
    (cache_delete (Except.ok ()) = true) ∧
    (∀ (err : CacheFailure) (del : List String → Except CacheFailure Unit),
      cache_delete_pattern (Except.error err) del = 0) ∧
    (∀ (keys : List String) (err : CacheFailure),
      cache_delete_pattern (Except.ok keys) (fun _ => Except.error err) = 0) ∧
    (∀ keys : List String, keys ≠ [] →
      cache_delete_pattern (Except.ok keys) (fun _ => Except.ok ()) = keys.length) := by
  refine ⟨fun _ _ => rfl, fun _ => rfl, ?_, ?_, fun _ _ _ => rfl, fun _ _ _ => rfl,
    fun _ _ => rfl, fun _ => rfl, rfl, fun _ _ => rfl, ?_, ?_⟩
  · intro v err deserialize h
    by_cases hv : v = "" <;> simp [cache_get, hv, h]
  · intro v x deserialize hv h
    simp [cache_get, hv, h]
  · intro keys err
    by_cases hk : keys.isEmpty <;> simp [cache_delete_pattern, hk]
  · intro keys hk
    have : keys.isEmpty = false := by
      cases keys with
      | nil => exact absurd rfl hk
      | cons a l => rfl
    simp [cache_delete_pattern, this]

/-- Witness for `C10_cache_never_raises` at concrete inputs: a failing
deserialization degrades to a miss, and a successful pattern delete of
two keys counts 2. -/
theorem C10_cache_never_raises_witness :
    cache_get (Except.ok (some "v")) (fun _ => (Except.error ⟨"boom"⟩ : Except CacheFailure Nat)) =
      none ∧
    cache_delete_pattern (Except.ok ["user:1", "user:2"]) (fun _ => Except.ok ()) = 2 :=
  ⟨(C10_cache_never_raises Nat).2.2.1 "v" ⟨"boom"⟩ _ rfl,
   (C10_cache_never_raises Nat).2.2.2.2.2.2.2.2.2.2.2 ["user:1", "user:2"] (by decide)⟩

end AgenticTrust
